import Mathlib

/-! Student / course / teacher / score management: repository and controller layer.

A shallow embedding of `src/20/main.cpp`.

* The PostgreSQL database behind the five repositories is a value of type `Store`:
  one list of rows per table.  Every repository object opens its own connection
  to the same database, so all of them act on the same `Store`.
* Each SQL statement of the source is a list operation on the table it names
  (`SELECT .. WHERE` is a filter, `DELETE .. WHERE` removes the matching rows,
  `INSERT` appends a row, `ON CONFLICT .. DO NOTHING / DO UPDATE` look for a row
  with the same key first).  An `INSERT` whose foreign key names no row is refused
  by the database: the statement throws and the method's `catch` rethrows it.
* A C++ exception is the `Except.error` carrying the text of `e.what()`.  A
  `catch` that rethrows with a prefix prepends that prefix.
* A `pqxx::work` that is destroyed without `commit()` is rolled back: a
  repository method that throws returns the store it was given.
* Console output on `std::cout` is not part of the model; the text that a
  controller prints on `std::cerr` is what the controller returns as its error.
-/

namespace StudentSys

/-! ## Domain layer -/

/-- Class `Student`: a row of table `students`. -/
structure Student where
  id : String
  name : String
  major : String
  deriving DecidableEq, Repr

/-- Class `Teacher`: a row of table `teachers`. -/
structure Teacher where
  id : String
  name : String
  department : String
  deriving DecidableEq, Repr

/-- Class `Course`: a row of table `courses`; `credit` is a C++ `int`, never used in arithmetic. -/
structure Course where
  id : String
  name : String
  credit : Int
  teacherId : String
  deriving DecidableEq, Repr

/-- Class `Score`: a row of table `scores`.  The C++ `double` is carried as an exact
rational: the repositories only store it and hand it back. -/
structure Score where
  studentId : String
  courseId : String
  score : ℚ
  deriving DecidableEq, Repr

/-- Modelled from the spec: the table `enrollments` has no class in the source and its
`CREATE TABLE` statement is not part of the source file; the statements of
`EnrollmentRepository` use exactly the two columns `student_id` and `course_id`. -/
structure Enrollment where
  studentId : String
  courseId : String
  deriving DecidableEq, Repr

/-- Modelled from the spec: the relational schema (five tables `students`, `teachers`,
`courses`, `enrollments`, `scores`) is created outside the source file.  A database
state is one list of rows per table, in insertion order.  The schema's foreign keys are
`courses.teacher_id` to `teachers.id`, `enrollments.student_id` to `students.id`,
`enrollments.course_id` to `courses.id`, and the pair of a `scores` row to the
`enrollments` row of the same pair.  They are enforced where a statement could break
them: the `INSERT` of `CourseRepository::addCourse` and of `EnrollmentRepository::enroll`
is refused when it names a missing row.  `ScoreRepository::setScore` has selected the
`enrollments` row in the same transaction before its `INSERT`, and every `DELETE` of a
referenced row comes after the `DELETE` of the rows that reference it, so those
statements are never refused.  The keys that `ON CONFLICT` names are the predicates
`StudentKey` and `ScoreKey` below. -/
structure Store where
  students : List Student
  teachers : List Teacher
  courses : List Course
  enrollments : List Enrollment
  scores : List Score
  deriving DecidableEq, Repr

/-- The database right after the schema has been created: every table is empty. -/
def Store.empty : Store := ⟨[], [], [], [], []⟩

/-- What a repository method does: the value it returns or the message of the
`std::runtime_error` it throws, together with the database state it leaves. -/
abbrev Outcome (α : Type) := Except String α × Store

/-- Sequencing inside a `try` block: the next call runs on the database the previous
one left; once a call has thrown, the rest of the block is skipped. -/
def Outcome.andThen {α β : Type} (x : Outcome α) (f : α → Store → Outcome β) : Outcome β :=
  match x with
  | (.ok a, st) => f a st
  | (.error e, st) => (.error e, st)

/-- The handler `catch (const std::exception& e) { throw std::runtime_error(pre + e.what()); }`
that closes every repository method. -/
def Outcome.rethrow {α : Type} (pre : String) (x : Outcome α) : Outcome α :=
  match x with
  | (.ok a, st) => (.ok a, st)
  | (.error e, st) => (.error (pre ++ e), st)

/-- Modelled from the spec: the text of the `pqxx::sql_error` that the database raises for
a row whose foreign key names no row.  The server words it, with the name the schema gives
the constraint, and neither is in the source file; only the table is kept here. -/
def foreignKeyViolation (table : String) : String :=
  "ERROR:  insert or update on table " ++ table ++ " violates foreign key constraint"

/-! ## Repository layer -/

namespace StudentRepository

/-- Statement `INSERT INTO students (id, name, major) VALUES ($1, $2, $3) ON CONFLICT (id) DO NOTHING`,
committed; the statement itself never throws in the model. -/
def addStudent (st : Store) (student : Student) : Outcome Unit :=
  Outcome.rethrow "新增学生失败："
    (.ok (),
      { st with
        students :=
          if st.students.any (fun r => r.id == student.id) then st.students
          else st.students ++ [student] })

/-- Statement `SELECT * FROM students WHERE id = $1`; throws when the result is empty, otherwise
builds a `Student` from row 0. -/
def getStudentById (st : Store) (id : String) : Outcome Student :=
  Outcome.rethrow "查询学生失败："
    (match st.students.filter (fun r => r.id == id) with
      | [] => (.error ("学生ID【" ++ id ++ "】不存在"), st)
      | r :: _ => (.ok (Student.mk r.id r.name r.major), st))

/-- The existence check `getStudentById(id)`, then one transaction with the three
`DELETE` statements (scores, enrollments, students) and the commit. -/
def deleteStudent (st : Store) (id : String) : Outcome Unit :=
  Outcome.rethrow "删除学生失败："
    (Outcome.andThen (getStudentById st id) fun _ st1 =>
      let st2 := { st1 with scores := st1.scores.filter (fun r => !(r.studentId == id)) }
      let st3 := { st2 with enrollments := st2.enrollments.filter (fun r => !(r.studentId == id)) }
      let st4 := { st3 with students := st3.students.filter (fun r => !(r.id == id)) }
      (.ok (), st4))

end StudentRepository

namespace TeacherRepository

/-- Statement `INSERT INTO teachers (id, name, department) VALUES ($1, $2, $3) ON CONFLICT (id) DO NOTHING`. -/
def addTeacher (st : Store) (teacher : Teacher) : Outcome Unit :=
  Outcome.rethrow "新增教师失败："
    (.ok (),
      { st with
        teachers :=
          if st.teachers.any (fun r => r.id == teacher.id) then st.teachers
          else st.teachers ++ [teacher] })

/-- Statement `SELECT * FROM teachers WHERE id = $1`; throws when the result is empty. -/
def getTeacherById (st : Store) (id : String) : Outcome Teacher :=
  Outcome.rethrow "查询教师失败："
    (match st.teachers.filter (fun r => r.id == id) with
      | [] => (.error ("教师ID【" ++ id ++ "】不存在"), st)
      | r :: _ => (.ok (Teacher.mk r.id r.name r.department), st))

end TeacherRepository

namespace CourseRepository

/-- Statement `INSERT INTO courses (id, name, credit, teacher_id) VALUES ($1, $2, $3, $4)
ON CONFLICT (id) DO NOTHING`.  A row whose id is taken is skipped before any other
check; a new row is refused when its `teacher_id` names no `teachers` row, and the
transaction is then dropped uncommitted. -/
def addCourse (st : Store) (course : Course) : Outcome Unit :=
  Outcome.rethrow "新增课程失败："
    (if st.courses.any (fun r => r.id == course.id) then (.ok (), st)
     else if st.teachers.any (fun r => r.id == course.teacherId) then
      (.ok (), { st with courses := st.courses ++ [course] })
     else (.error (foreignKeyViolation "courses"), st))

/-- Statement `SELECT * FROM courses WHERE id = $1`; throws when the result is empty. -/
def getCourseById (st : Store) (id : String) : Outcome Course :=
  Outcome.rethrow "查询课程失败："
    (match st.courses.filter (fun r => r.id == id) with
      | [] => (.error ("课程ID【" ++ id ++ "】不存在"), st)
      | r :: _ => (.ok (Course.mk r.id r.name r.credit r.teacherId), st))

/-- The existence check `getCourseById(id)`, then one transaction with the three
`DELETE` statements (scores, enrollments, courses) and the commit. -/
def deleteCourse (st : Store) (id : String) : Outcome Unit :=
  Outcome.rethrow "删除课程失败："
    (Outcome.andThen (getCourseById st id) fun _ st1 =>
      let st2 := { st1 with scores := st1.scores.filter (fun r => !(r.courseId == id)) }
      let st3 := { st2 with enrollments := st2.enrollments.filter (fun r => !(r.courseId == id)) }
      let st4 := { st3 with courses := st3.courses.filter (fun r => !(r.id == id)) }
      (.ok (), st4))

end CourseRepository

namespace ScoreRepository

/-- One transaction: `SELECT * FROM enrollments WHERE student_id = $1 AND course_id = $2`,
a throw when it is empty (the transaction is dropped uncommitted, nothing was written),
otherwise `INSERT INTO scores .. ON CONFLICT (student_id, course_id) DO UPDATE SET score = $3`
and the commit. -/
def setScore (st : Store) (score : Score) : Outcome Unit :=
  Outcome.rethrow "成绩操作失败："
    (let res := st.enrollments.filter
        (fun r => r.studentId == score.studentId && r.courseId == score.courseId)
     if res.isEmpty then (.error "学生未选该课程，无法录入成绩", st)
     else
      (.ok (),
        { st with
          scores :=
            if st.scores.any
                (fun r => r.studentId == score.studentId && r.courseId == score.courseId)
            then st.scores.map (fun r =>
                if r.studentId == score.studentId && r.courseId == score.courseId
                then { r with score := score.score } else r)
            else st.scores ++ [Score.mk score.studentId score.courseId score.score] }))

end ScoreRepository

namespace EnrollmentRepository

/-- One transaction: the duplicate check
`SELECT * FROM enrollments WHERE student_id = $1 AND course_id = $2`, a throw when it is
not empty, otherwise `INSERT INTO enrollments (student_id, course_id) VALUES ($1, $2)`
and the commit.  The `INSERT` is refused when `student_id` names no `students` row or
`course_id` names no `courses` row; the method has no check of its own for that, the
`catch` turns the database's error into its own, and nothing is committed. -/
def enroll (st : Store) (studentId courseId : String) : Outcome Unit :=
  Outcome.rethrow "选课失败："
    (let res := st.enrollments.filter
        (fun r => r.studentId == studentId && r.courseId == courseId)
     if !res.isEmpty then (.error "已选该课程，无需重复选课", st)
     else if st.students.any (fun r => r.id == studentId)
          && st.courses.any (fun r => r.id == courseId) then
      (.ok (), { st with enrollments := st.enrollments ++ [Enrollment.mk studentId courseId] })
     else (.error (foreignKeyViolation "enrollments"), st))

/-- One transaction: the enrolment check, a throw when it is empty, otherwise
`DELETE FROM scores WHERE student_id = $1 AND course_id = $2`, then
`DELETE FROM enrollments WHERE student_id = $1 AND course_id = $2`, and the commit. -/
def dropCourse (st : Store) (studentId courseId : String) : Outcome Unit :=
  Outcome.rethrow "退课失败："
    (let res := st.enrollments.filter
        (fun r => r.studentId == studentId && r.courseId == courseId)
     if res.isEmpty then (.error "未选该课程，无法退课", st)
     else
      let st1 :=
        { st with
          scores := st.scores.filter
            (fun r => !(r.studentId == studentId && r.courseId == courseId)) }
      let st2 :=
        { st1 with
          enrollments := st1.enrollments.filter
            (fun r => !(r.studentId == studentId && r.courseId == courseId)) }
      (.ok (), st2))

end EnrollmentRepository

/-! ## Application layer

The controllers read their arguments from the terminal (`InputUtil`), which is taken
here as the parameters of the function, run the repository calls inside one `try`
block, and print `e.what()` on `std::cerr` in the handler.  The `.error` of a
controller is that printed text. -/

namespace StudentController

/-- Body `studentRepo.addStudent(Student(id, name, major))`. -/
def addStudent (st : Store) (id name major : String) : Outcome Unit :=
  StudentRepository.addStudent st (Student.mk id name major)

/-- Body `studentRepo.deleteStudent(id)`. -/
def deleteStudent (st : Store) (id : String) : Outcome Unit :=
  StudentRepository.deleteStudent st id

end StudentController

namespace TeacherController

/-- Body `teacherRepo.addTeacher(Teacher(id, name, dept))`. -/
def addTeacher (st : Store) (id name dept : String) : Outcome Unit :=
  TeacherRepository.addTeacher st (Teacher.mk id name dept)

end TeacherController

namespace CourseController

/-- Body `teacherRepo.getTeacherById(tid); courseRepo.addCourse(Course(id, name, credit, tid));`
The credit has been read by `InputUtil::readInt(1, 10)`. -/
def addCourse (st : Store) (id name : String) (credit : Int) (tid : String) : Outcome Unit :=
  Outcome.andThen (TeacherRepository.getTeacherById st tid) fun _ st1 =>
    CourseRepository.addCourse st1 (Course.mk id name credit tid)

/-- Body `courseRepo.deleteCourse(id)`. -/
def deleteCourse (st : Store) (id : String) : Outcome Unit :=
  CourseRepository.deleteCourse st id

/-- Body `studentRepo.getStudentById(sid); courseRepo.getCourseById(cid); enrollRepo.enroll(sid, cid);` -/
def enrollStudent (st : Store) (sid cid : String) : Outcome Unit :=
  Outcome.andThen (StudentRepository.getStudentById st sid) fun _ st1 =>
    Outcome.andThen (CourseRepository.getCourseById st1 cid) fun _ st2 =>
      EnrollmentRepository.enroll st2 sid cid

/-- Body `enrollRepo.dropCourse(sid, cid)`. -/
def dropStudentCourse (st : Store) (sid cid : String) : Outcome Unit :=
  EnrollmentRepository.dropCourse st sid cid

end CourseController

namespace ScoreController

/-- Body `studentRepo.getStudentById(sid); courseRepo.getCourseById(cid);
scoreRepo.setScore(Score(sid, cid, score));`  The score has been read by
`InputUtil::readScore()`. -/
def inputScore (st : Store) (sid cid : String) (score : ℚ) : Outcome Unit :=
  Outcome.andThen (StudentRepository.getStudentById st sid) fun _ st1 =>
    Outcome.andThen (CourseRepository.getCourseById st1 cid) fun _ st2 =>
      ScoreRepository.setScore st2 (Score.mk sid cid score)

end ScoreController

/-! ## Predicates on database states -/

/-- Table `students` has a row with this id. -/
def Store.hasStudent (st : Store) (id : String) : Prop := ∃ r ∈ st.students, r.id = id

/-- Table `teachers` has a row with this id. -/
def Store.hasTeacher (st : Store) (id : String) : Prop := ∃ r ∈ st.teachers, r.id = id

/-- Table `courses` has a row with this id. -/
def Store.hasCourse (st : Store) (id : String) : Prop := ∃ r ∈ st.courses, r.id = id

/-- Table `enrollments` has a row for the pair. -/
def Store.enrolled (st : Store) (sid cid : String) : Prop :=
  ∃ e ∈ st.enrollments, e.studentId = sid ∧ e.courseId = cid

/-- Table `scores` has a row for the pair. -/
def Store.scored (st : Store) (sid cid : String) : Prop :=
  ∃ r ∈ st.scores, r.studentId = sid ∧ r.courseId = cid

/-- Every row of `scores` has a row of `enrollments` for the same pair. -/
def ScoreRequiresEnrollment (st : Store) : Prop :=
  ∀ r ∈ st.scores, st.enrolled r.studentId r.courseId

/-- The key of `students` named by `ON CONFLICT (id)`: no two rows share an id. -/
def StudentKey (st : Store) : Prop := (st.students.map (fun r => r.id)).Nodup

/-- The key of `scores` named by `ON CONFLICT (student_id, course_id)`: no two rows
share a pair. -/
def ScoreKey (st : Store) : Prop :=
  (st.scores.map (fun r => (r.studentId, r.courseId))).Nodup

instance (st : Store) (id : String) : Decidable (st.hasStudent id) := by
  unfold Store.hasStudent; infer_instance

instance (st : Store) (id : String) : Decidable (st.hasTeacher id) := by
  unfold Store.hasTeacher; infer_instance

instance (st : Store) (id : String) : Decidable (st.hasCourse id) := by
  unfold Store.hasCourse; infer_instance

instance (st : Store) (sid cid : String) : Decidable (st.enrolled sid cid) := by
  unfold Store.enrolled; infer_instance

instance (st : Store) (sid cid : String) : Decidable (st.scored sid cid) := by
  unfold Store.scored; infer_instance

instance (st : Store) : Decidable (ScoreRequiresEnrollment st) := by
  unfold ScoreRequiresEnrollment; infer_instance

instance (st : Store) : Decidable (StudentKey st) := by
  unfold StudentKey; infer_instance

instance (st : Store) : Decidable (ScoreKey st) := by
  unfold ScoreKey; infer_instance

/-! ## Sample database states -/

/-- The store with student `S1` enrolled in `C1` and `C2`, scored in `C1`, next to a
second student `S2` with an enrolment and a score of their own. -/
def sampleStore : Store :=
  { students := [⟨"S1", "Li", "CS"⟩, ⟨"S2", "Zhao", "Math"⟩]
    teachers := [⟨"T1", "Wang", "CS"⟩]
    courses := [⟨"C1", "Algorithms", 4, "T1"⟩, ⟨"C2", "Logic", 3, "T1"⟩]
    enrollments := [⟨"S1", "C1"⟩, ⟨"S1", "C2"⟩, ⟨"S2", "C1"⟩]
    scores := [⟨"S1", "C1", 90⟩, ⟨"S2", "C1", 70⟩] }

/-! ## Sequences of repository calls -/

/-- The eight state-changing repository methods with their arguments. -/
inductive RepoOp where
  | addStudent (student : Student)
  | addTeacher (teacher : Teacher)
  | addCourse (course : Course)
  | deleteStudent (id : String)
  | deleteCourse (id : String)
  | setScore (score : Score)
  | enroll (studentId courseId : String)
  | dropCourse (studentId courseId : String)
  deriving DecidableEq, Repr

/-- One repository call on a database state. -/
def RepoOp.run (op : RepoOp) (st : Store) : Outcome Unit :=
  match op with
  | .addStudent student => StudentRepository.addStudent st student
  | .addTeacher teacher => TeacherRepository.addTeacher st teacher
  | .addCourse course => CourseRepository.addCourse st course
  | .deleteStudent id => StudentRepository.deleteStudent st id
  | .deleteCourse id => CourseRepository.deleteCourse st id
  | .setScore score => ScoreRepository.setScore st score
  | .enroll studentId courseId => EnrollmentRepository.enroll st studentId courseId
  | .dropCourse studentId courseId => EnrollmentRepository.dropCourse st studentId courseId

/-- The database after a sequence of repository calls, each one starting from the state
the previous one left, whether it returned or threw. -/
def runRepoOps (ops : List RepoOp) (st : Store) : Store :=
  ops.foldl (fun s op => (op.run s).2) st

/-! ## Ordered queries -/

/-- Modelled from the spec: `ORDER BY course_id` sorts by the collation of the text column,
which is fixed where the database is created, outside the source file.  A collation is a
total preorder on strings, given by its comparison `le`. -/
structure Collation where
  le : String → String → Bool
  total : ∀ a b, le a b = true ∨ le b a = true
  trans : ∀ a b c, le a b = true → le b c = true → le a c = true

/-- The code-point order of strings, PostgreSQL's collation `C`. -/
def Collation.codepoint : Collation where
  le a b := decide (a ≤ b)
  total a b := by
    rcases le_total a b with h | h
    · exact Or.inl (decide_eq_true h)
    · exact Or.inr (decide_eq_true h)
  trans a b c hab hbc := decide_eq_true (le_trans (of_decide_eq_true hab) (of_decide_eq_true hbc))

namespace ScoreRepository

/-- Statement `SELECT * FROM scores WHERE student_id = $1 ORDER BY course_id`, one `Score`
built per result row, and a throw when the vector is empty.  Rows with equal `course_id`
come out in table order. -/
def getScoresByStudentId (col : Collation) (st : Store) (studentId : String) :
    Outcome (List Score) :=
  Outcome.rethrow "查询成绩失败："
    (let res := (st.scores.filter (fun r => r.studentId == studentId)).insertionSort
        (fun a b => col.le a.courseId b.courseId = true)
     let scores := res.map (fun row => Score.mk row.studentId row.courseId row.score)
     if scores.isEmpty then (.error "该学生暂无成绩记录", st) else (.ok scores, st))

end ScoreRepository

namespace EnrollmentRepository

/-- The `for` loop of `getEnrolledCourses`: for each result row in turn,
`courses.push_back(courseRepo.getCourseById(cid))`; the first lookup that throws ends it. -/
def collectCourses (st : Store) : List String → List Course → Outcome (List Course)
  | [], courses => (.ok courses, st)
  | cid :: rest, courses =>
    match CourseRepository.getCourseById st cid with
    | (.ok c, _) => collectCourses st rest (courses ++ [c])
    | (.error e, _) => (.error e, st)

/-- Statement `SELECT course_id FROM enrollments WHERE student_id = $1 ORDER BY course_id`,
the loop over its rows, and a throw when the vector is empty. -/
def getEnrolledCourses (col : Collation) (st : Store) (studentId : String) :
    Outcome (List Course) :=
  Outcome.rethrow "查询选课记录失败："
    (let res := ((st.enrollments.filter (fun r => r.studentId == studentId)).map
        (fun r => r.courseId)).insertionSort (fun a b => col.le a b = true)
     Outcome.andThen (collectCourses st res []) fun courses st1 =>
       if courses.isEmpty then (.error "该学生暂无选课记录", st1) else (.ok courses, st1))

end EnrollmentRepository

namespace ScoreController

/-- What `queryStudentScore` prints for a student: one line per score (course id, course
name, score) and the average. -/
structure ScoreReport where
  lines : List (String × String × ℚ)
  average : ℚ
  deriving DecidableEq, Repr

/-- The `for` loop of `queryStudentScore`: for each score in turn, look the course up,
add the score to `sum` and print the line; the first lookup that throws ends it. -/
def sumScores (st : Store) :
    List Score → List (String × String × ℚ) → ℚ → Outcome (List (String × String × ℚ) × ℚ)
  | [], lines, sum => (.ok (lines, sum), st)
  | s :: rest, lines, sum =>
    match CourseRepository.getCourseById st s.courseId with
    | (.ok course, _) =>
      sumScores st rest (lines ++ [(s.courseId, course.name, s.score)]) (sum + s.score)
    | (.error e, _) => (.error e, st)

/-- Body `auto student = studentRepo.getStudentById(sid);
auto scores = scoreRepo.getScoresByStudentId(sid);`, the loop from `sum = 0.0`, and the
average `sum / scores.size()`. -/
def queryStudentScore (col : Collation) (st : Store) (sid : String) : Outcome ScoreReport :=
  Outcome.andThen (StudentRepository.getStudentById st sid) fun _ st1 =>
    Outcome.andThen (ScoreRepository.getScoresByStudentId col st1 sid) fun scores st2 =>
      Outcome.andThen (sumScores st2 scores [] 0) fun r st3 =>
        (.ok (ScoreReport.mk r.1 (r.2 / (scores.length : ℚ))), st3)

end ScoreController

/-! ## Sequences of controller calls -/

/-- The eight state-changing controller methods with the input they read. -/
inductive ServiceOp where
  | addStudent (id name major : String)
  | deleteStudent (id : String)
  | addTeacher (id name dept : String)
  | addCourse (id name : String) (credit : Int) (tid : String)
  | deleteCourse (id : String)
  | enrollStudent (sid cid : String)
  | dropStudentCourse (sid cid : String)
  | inputScore (sid cid : String) (score : ℚ)
  deriving DecidableEq, Repr

/-- One controller call on a database state. -/
def ServiceOp.run (op : ServiceOp) (st : Store) : Outcome Unit :=
  match op with
  | .addStudent id name major => StudentController.addStudent st id name major
  | .deleteStudent id => StudentController.deleteStudent st id
  | .addTeacher id name dept => TeacherController.addTeacher st id name dept
  | .addCourse id name credit tid => CourseController.addCourse st id name credit tid
  | .deleteCourse id => CourseController.deleteCourse st id
  | .enrollStudent sid cid => CourseController.enrollStudent st sid cid
  | .dropStudentCourse sid cid => CourseController.dropStudentCourse st sid cid
  | .inputScore sid cid score => ScoreController.inputScore st sid cid score

/-- The database after a sequence of controller calls, each one starting from the state
the previous one left, whether it went through or printed an error. -/
def runServiceOps (ops : List ServiceOp) (st : Store) : Store :=
  ops.foldl (fun s op => (op.run s).2) st

/-- Every `enrollments` row names a student in `students` and a course in `courses`, and
every `courses` row names a teacher in `teachers`. -/
def RefIntegrity (st : Store) : Prop :=
  (∀ e ∈ st.enrollments, st.hasStudent e.studentId ∧ st.hasCourse e.courseId) ∧
  (∀ c ∈ st.courses, st.hasTeacher c.teacherId)

instance (st : Store) : Decidable (RefIntegrity st) := by
  unfold RefIntegrity; infer_instance

/-! ## The end-to-end scenario -/

/-- The empty database after teacher `T1` has been added. -/
def scenarioTeacher : Store :=
  (TeacherController.addTeacher Store.empty "T1" "Wang" "CS").2

/-- Then course `C1`, taught by `T1`, is added through the controller. -/
def scenarioCourse : Store :=
  (CourseController.addCourse scenarioTeacher "C1" "Algorithms" 4 "T1").2

/-- Then course `C2`, naming the unknown teacher `T99`, is tried through the controller. -/
def scenarioRejected : Store :=
  (CourseController.addCourse scenarioCourse "C2" "X" 4 "T99").2

/-- Then student `S1` is added, with whatever name and major. -/
def scenarioStudent (name major : String) : Store :=
  (StudentController.addStudent scenarioRejected "S1" name major).2

/-- Then `S1` is enrolled in `C1` through the controller. -/
def scenarioEnrolled (name major : String) : Store :=
  (CourseController.enrollStudent (scenarioStudent name major) "S1" "C1").2

/-- Then the score 85.5 of `S1` in `C1` is entered through the controller. -/
def scenarioScored (name major : String) : Store :=
  (ScoreController.inputScore (scenarioEnrolled name major) "S1" "C1" 85.5).2

/-! # Properties -/

/-! ## Lookups by id -/

theorem getStudentById_absent (st : Store) (id : String) (h : ¬ st.hasStudent id) :
    StudentRepository.getStudentById st id
      = (.error ("查询学生失败：" ++ ("学生ID【" ++ id ++ "】不存在")), st) := by
  have hnil : st.students.filter (fun r => r.id == id) = [] := by
    rw [List.filter_eq_nil_iff]
    intro r hr hid
    exact h ⟨r, hr, by simpa using hid⟩
  simp [StudentRepository.getStudentById, hnil, Outcome.rethrow]

theorem getStudentById_present (st : Store) (id : String) (h : st.hasStudent id) :
    ∃ s, StudentRepository.getStudentById st id = (.ok s, st) ∧ s ∈ st.students ∧ s.id = id := by
  obtain ⟨r, hr, hid⟩ := h
  cases hf : st.students.filter (fun r => r.id == id) with
  | nil =>
    rw [List.filter_eq_nil_iff] at hf
    exact absurd (by simpa using hid) (hf r hr)
  | cons a t =>
    have ha : a ∈ st.students.filter (fun r => r.id == id) := by rw [hf]; exact List.mem_cons_self _ _
    rw [List.mem_filter] at ha
    exact ⟨a, by simp [StudentRepository.getStudentById, hf, Outcome.rethrow], ha.1, by simpa using ha.2⟩

theorem getTeacherById_absent (st : Store) (id : String) (h : ¬ st.hasTeacher id) :
    TeacherRepository.getTeacherById st id
      = (.error ("查询教师失败：" ++ ("教师ID【" ++ id ++ "】不存在")), st) := by
  have hnil : st.teachers.filter (fun r => r.id == id) = [] := by
    rw [List.filter_eq_nil_iff]
    intro r hr hid
    exact h ⟨r, hr, by simpa using hid⟩
  simp [TeacherRepository.getTeacherById, hnil, Outcome.rethrow]

theorem getTeacherById_present (st : Store) (id : String) (h : st.hasTeacher id) :
    ∃ t, TeacherRepository.getTeacherById st id = (.ok t, st) ∧ t ∈ st.teachers ∧ t.id = id := by
  obtain ⟨r, hr, hid⟩ := h
  cases hf : st.teachers.filter (fun r => r.id == id) with
  | nil =>
    rw [List.filter_eq_nil_iff] at hf
    exact absurd (by simpa using hid) (hf r hr)
  | cons a t =>
    have ha : a ∈ st.teachers.filter (fun r => r.id == id) := by rw [hf]; exact List.mem_cons_self _ _
    rw [List.mem_filter] at ha
    exact ⟨a, by simp [TeacherRepository.getTeacherById, hf, Outcome.rethrow], ha.1, by simpa using ha.2⟩

theorem getCourseById_absent (st : Store) (id : String) (h : ¬ st.hasCourse id) :
    CourseRepository.getCourseById st id
      = (.error ("查询课程失败：" ++ ("课程ID【" ++ id ++ "】不存在")), st) := by
  have hnil : st.courses.filter (fun r => r.id == id) = [] := by
    rw [List.filter_eq_nil_iff]
    intro r hr hid
    exact h ⟨r, hr, by simpa using hid⟩
  simp [CourseRepository.getCourseById, hnil, Outcome.rethrow]

theorem getCourseById_present (st : Store) (id : String) (h : st.hasCourse id) :
    ∃ c, CourseRepository.getCourseById st id = (.ok c, st) ∧ c ∈ st.courses ∧ c.id = id := by
  obtain ⟨r, hr, hid⟩ := h
  cases hf : st.courses.filter (fun r => r.id == id) with
  | nil =>
    rw [List.filter_eq_nil_iff] at hf
    exact absurd (by simpa using hid) (hf r hr)
  | cons a t =>
    have ha : a ∈ st.courses.filter (fun r => r.id == id) := by rw [hf]; exact List.mem_cons_self _ _
    rw [List.mem_filter] at ha
    exact ⟨a, by simp [CourseRepository.getCourseById, hf, Outcome.rethrow], ha.1, by simpa using ha.2⟩

/-! ## The references an `INSERT` must find -/

theorem students_any_id (st : Store) (id : String) :
    st.students.any (fun r => r.id == id) = true ↔ st.hasStudent id := by
  rw [List.any_eq_true]
  constructor
  · rintro ⟨r, hr, hid⟩
    exact ⟨r, hr, by simpa using hid⟩
  · rintro ⟨r, hr, hid⟩
    exact ⟨r, hr, by simpa using hid⟩

theorem teachers_any_id (st : Store) (id : String) :
    st.teachers.any (fun r => r.id == id) = true ↔ st.hasTeacher id := by
  rw [List.any_eq_true]
  constructor
  · rintro ⟨r, hr, hid⟩
    exact ⟨r, hr, by simpa using hid⟩
  · rintro ⟨r, hr, hid⟩
    exact ⟨r, hr, by simpa using hid⟩

theorem courses_any_id (st : Store) (id : String) :
    st.courses.any (fun r => r.id == id) = true ↔ st.hasCourse id := by
  rw [List.any_eq_true]
  constructor
  · rintro ⟨r, hr, hid⟩
    exact ⟨r, hr, by simpa using hid⟩
  · rintro ⟨r, hr, hid⟩
    exact ⟨r, hr, by simpa using hid⟩

/-! ## The enrolment check shared by `setScore`, `enroll` and `dropCourse` -/

theorem enrollment_check_isEmpty (st : Store) (sid cid : String) :
    (st.enrollments.filter (fun r => r.studentId == sid && r.courseId == cid)).isEmpty = true
      ↔ ¬ st.enrolled sid cid := by
  rw [List.isEmpty_iff, List.filter_eq_nil_iff]
  constructor
  · rintro h ⟨e, he, h1, h2⟩
    exact h e he (by simp [h1, h2])
  · intro h e he hc
    simp only [Bool.and_eq_true, beq_iff_eq] at hc
    exact h ⟨e, he, hc.1, hc.2⟩

/-! ## What the two cascade deletes compute -/

theorem deleteStudent_present (st : Store) (id : String) (h : st.hasStudent id) :
    StudentRepository.deleteStudent st id
      = (.ok (),
          { st with
            scores := st.scores.filter (fun r => !(r.studentId == id))
            enrollments := st.enrollments.filter (fun r => !(r.studentId == id))
            students := st.students.filter (fun r => !(r.id == id)) }) := by
  obtain ⟨s, hs, -, -⟩ := getStudentById_present st id h
  simp [StudentRepository.deleteStudent, hs, Outcome.andThen, Outcome.rethrow]

theorem deleteStudent_absent (st : Store) (id : String) (h : ¬ st.hasStudent id) :
    StudentRepository.deleteStudent st id
      = (.error ("删除学生失败：" ++ ("查询学生失败：" ++ ("学生ID【" ++ id ++ "】不存在"))), st) := by
  simp [StudentRepository.deleteStudent, getStudentById_absent st id h, Outcome.andThen,
    Outcome.rethrow]

theorem deleteCourse_present (st : Store) (id : String) (h : st.hasCourse id) :
    CourseRepository.deleteCourse st id
      = (.ok (),
          { st with
            scores := st.scores.filter (fun r => !(r.courseId == id))
            enrollments := st.enrollments.filter (fun r => !(r.courseId == id))
            courses := st.courses.filter (fun r => !(r.id == id)) }) := by
  obtain ⟨s, hs, -, -⟩ := getCourseById_present st id h
  simp [CourseRepository.deleteCourse, hs, Outcome.andThen, Outcome.rethrow]

theorem deleteCourse_absent (st : Store) (id : String) (h : ¬ st.hasCourse id) :
    CourseRepository.deleteCourse st id
      = (.error ("删除课程失败：" ++ ("查询课程失败：" ++ ("课程ID【" ++ id ++ "】不存在"))), st) := by
  simp [CourseRepository.deleteCourse, getCourseById_absent st id h, Outcome.andThen,
    Outcome.rethrow]

/-! ## Cascade delete of a student -/

/-- C1: for every store and every student id `S` that exists in `students`,
`StudentRepository::deleteStudent(S)` succeeds, and the resulting store has no `students`
row with id `S`, no `enrollments` row with student id `S` and no `scores` row with student
id `S`. -/
theorem deleteStudent_cascade_complete (st : Store) (S : String) (h : st.hasStudent S) :
    (StudentRepository.deleteStudent st S).1 = .ok () ∧
    ¬ (StudentRepository.deleteStudent st S).2.hasStudent S ∧
    (∀ e ∈ (StudentRepository.deleteStudent st S).2.enrollments, e.studentId ≠ S) ∧
    (∀ r ∈ (StudentRepository.deleteStudent st S).2.scores, r.studentId ≠ S) := by
  rw [deleteStudent_present st S h]
  refine ⟨rfl, ?_, ?_, ?_⟩
  · rintro ⟨r, hr, hid⟩
    simp only [List.mem_filter] at hr
    simp [hid] at hr
  · intro e he
    simp only [List.mem_filter] at he
    simpa using he.2
  · intro r hr
    simp only [List.mem_filter] at hr
    simpa using hr.2

theorem deleteStudent_cascade_complete_witness :
    sampleStore.hasStudent "S1" ∧
    (StudentRepository.deleteStudent sampleStore "S1").1 = .ok () ∧
    ¬ (StudentRepository.deleteStudent sampleStore "S1").2.hasStudent "S1" ∧
    (∀ e ∈ (StudentRepository.deleteStudent sampleStore "S1").2.enrollments, e.studentId ≠ "S1") ∧
    (∀ r ∈ (StudentRepository.deleteStudent sampleStore "S1").2.scores, r.studentId ≠ "S1") :=
  ⟨by decide, deleteStudent_cascade_complete sampleStore "S1" (by decide)⟩

/-! ## What `setScore`, `enroll` and `dropCourse` compute -/

theorem setScore_not_enrolled_eq (st : Store) (score : Score)
    (h : ¬ st.enrolled score.studentId score.courseId) :
    ScoreRepository.setScore st score
      = (.error ("成绩操作失败：" ++ "学生未选该课程，无法录入成绩"), st) := by
  have he := (enrollment_check_isEmpty st score.studentId score.courseId).2 h
  simp only [ScoreRepository.setScore, he, if_true, Outcome.rethrow]

theorem setScore_enrolled_eq (st : Store) (score : Score)
    (h : st.enrolled score.studentId score.courseId) :
    ScoreRepository.setScore st score
      = (.ok (),
          { st with
            scores :=
              if st.scores.any
                  (fun r => r.studentId == score.studentId && r.courseId == score.courseId)
              then st.scores.map (fun r =>
                  if r.studentId == score.studentId && r.courseId == score.courseId
                  then { r with score := score.score } else r)
              else st.scores ++ [Score.mk score.studentId score.courseId score.score] }) := by
  have he : (st.enrollments.filter
      (fun r => r.studentId == score.studentId && r.courseId == score.courseId)).isEmpty
        = false := by
    rw [Bool.eq_false_iff]
    exact fun hc => (enrollment_check_isEmpty st score.studentId score.courseId).1 hc h
  simp only [ScoreRepository.setScore, he, Bool.false_eq_true, if_false, Outcome.rethrow]

theorem enroll_fresh_eq (st : Store) (sid cid : String) (h : ¬ st.enrolled sid cid)
    (hs : st.hasStudent sid) (hc : st.hasCourse cid) :
    EnrollmentRepository.enroll st sid cid
      = (.ok (), { st with enrollments := st.enrollments ++ [Enrollment.mk sid cid] }) := by
  have he := (enrollment_check_isEmpty st sid cid).2 h
  have h1 := (students_any_id st sid).2 hs
  have h2 := (courses_any_id st cid).2 hc
  simp only [EnrollmentRepository.enroll, he, h1, h2, Bool.not_true, Bool.false_eq_true,
    if_false, Bool.and_self, if_true, Outcome.rethrow]

theorem enroll_refused_eq (st : Store) (sid cid : String) (h : ¬ st.enrolled sid cid)
    (hfk : ¬ (st.hasStudent sid ∧ st.hasCourse cid)) :
    EnrollmentRepository.enroll st sid cid
      = (.error ("选课失败：" ++ foreignKeyViolation "enrollments"), st) := by
  have he := (enrollment_check_isEmpty st sid cid).2 h
  have hb : (st.students.any (fun r => r.id == sid) && st.courses.any (fun r => r.id == cid))
      = false := by
    rw [Bool.eq_false_iff]
    intro hc
    rw [Bool.and_eq_true] at hc
    exact hfk ⟨(students_any_id st sid).1 hc.1, (courses_any_id st cid).1 hc.2⟩
  simp only [EnrollmentRepository.enroll, he, hb, Bool.not_true, Bool.false_eq_true,
    if_false, Outcome.rethrow]

theorem enroll_duplicate_eq (st : Store) (sid cid : String) (h : st.enrolled sid cid) :
    EnrollmentRepository.enroll st sid cid
      = (.error ("选课失败：" ++ "已选该课程，无需重复选课"), st) := by
  have he : (st.enrollments.filter
      (fun r => r.studentId == sid && r.courseId == cid)).isEmpty = false := by
    rw [Bool.eq_false_iff]
    exact fun hc => (enrollment_check_isEmpty st sid cid).1 hc h
  simp only [EnrollmentRepository.enroll, he, Bool.not_false, if_true, Outcome.rethrow]

theorem enroll_store_cases (st : Store) (sid cid : String) :
    (EnrollmentRepository.enroll st sid cid).2 = st ∨
    (st.hasStudent sid ∧ st.hasCourse cid ∧
      (EnrollmentRepository.enroll st sid cid).2
        = { st with enrollments := st.enrollments ++ [Enrollment.mk sid cid] }) := by
  by_cases hen : st.enrolled sid cid
  · left
    rw [enroll_duplicate_eq st sid cid hen]
  · by_cases hfk : st.hasStudent sid ∧ st.hasCourse cid
    · right
      exact ⟨hfk.1, hfk.2, by rw [enroll_fresh_eq st sid cid hen hfk.1 hfk.2]⟩
    · left
      rw [enroll_refused_eq st sid cid hen hfk]

theorem dropCourse_enrolled_eq (st : Store) (sid cid : String) (h : st.enrolled sid cid) :
    EnrollmentRepository.dropCourse st sid cid
      = (.ok (),
          { st with
            scores := st.scores.filter (fun r => !(r.studentId == sid && r.courseId == cid))
            enrollments :=
              st.enrollments.filter (fun r => !(r.studentId == sid && r.courseId == cid)) }) := by
  have he : (st.enrollments.filter
      (fun r => r.studentId == sid && r.courseId == cid)).isEmpty = false := by
    rw [Bool.eq_false_iff]
    exact fun hc => (enrollment_check_isEmpty st sid cid).1 hc h
  simp only [EnrollmentRepository.dropCourse, he, Bool.false_eq_true, if_false, Outcome.rethrow]

theorem dropCourse_not_enrolled_eq (st : Store) (sid cid : String) (h : ¬ st.enrolled sid cid) :
    EnrollmentRepository.dropCourse st sid cid
      = (.error ("退课失败：" ++ "未选该课程，无法退课"), st) := by
  have he := (enrollment_check_isEmpty st sid cid).2 h
  simp only [EnrollmentRepository.dropCourse, he, if_true, Outcome.rethrow]

/-! ## Scoring and enrolment errors -/

/-- C2: in a store where every `scores` row has a matching `enrollments` row, for every
pair `(studentId, courseId)` without an `enrollments` row and every score value,
`ScoreRepository::setScore` fails with the not-enrolled error, the store is unchanged,
and no `scores` row for the pair exists afterwards. -/
theorem setScore_not_enrolled_fails (st : Store) (sid cid : String) (v : ℚ)
    (hinv : ScoreRequiresEnrollment st) (hne : ¬ st.enrolled sid cid) :
    ScoreRepository.setScore st (Score.mk sid cid v)
      = (.error ("成绩操作失败：" ++ "学生未选该课程，无法录入成绩"), st) ∧
    ¬ (ScoreRepository.setScore st (Score.mk sid cid v)).2.scored sid cid := by
  have heq := setScore_not_enrolled_eq st (Score.mk sid cid v) hne
  refine ⟨heq, ?_⟩
  rw [heq]
  rintro ⟨r, hr, h1, h2⟩
  have := hinv r hr
  rw [h1, h2] at this
  exact hne this

theorem setScore_not_enrolled_fails_witness :
    ScoreRequiresEnrollment sampleStore ∧ ¬ sampleStore.enrolled "S2" "C2" ∧
    ScoreRepository.setScore sampleStore (Score.mk "S2" "C2" 60)
      = (.error ("成绩操作失败：" ++ "学生未选该课程，无法录入成绩"), sampleStore) ∧
    ¬ (ScoreRepository.setScore sampleStore (Score.mk "S2" "C2" 60)).2.scored "S2" "C2" :=
  ⟨by decide, by decide,
    setScore_not_enrolled_fails sampleStore "S2" "C2" 60 (by decide) (by decide)⟩

/-- C3, as the code has it: for every store and every pair `(studentId, courseId)` not yet
in `enrollments` whose student is in `students` and whose course is in `courses`, the first
`EnrollmentRepository::enroll` succeeds, an immediately following `enroll` of the same pair
fails with the already-enrolled error and changes nothing, and afterwards `enrollments`
holds exactly one row for the pair. -/
theorem enroll_twice_rejected (st : Store) (sid cid : String) (h : ¬ st.enrolled sid cid)
    (hs : st.hasStudent sid) (hc : st.hasCourse cid) :
    (EnrollmentRepository.enroll st sid cid).1 = .ok () ∧
    EnrollmentRepository.enroll (EnrollmentRepository.enroll st sid cid).2 sid cid
      = (.error ("选课失败：" ++ "已选该课程，无需重复选课"),
          (EnrollmentRepository.enroll st sid cid).2) ∧
    (EnrollmentRepository.enroll
        (EnrollmentRepository.enroll st sid cid).2 sid cid).2.enrollments.count
      (Enrollment.mk sid cid) = 1 := by
  have h1 := enroll_fresh_eq st sid cid h hs hc
  have hen : (EnrollmentRepository.enroll st sid cid).2.enrolled sid cid := by
    rw [h1]
    exact ⟨Enrollment.mk sid cid, by simp, rfl, rfl⟩
  have h2 := enroll_duplicate_eq _ sid cid hen
  refine ⟨by rw [h1], h2, ?_⟩
  rw [h2, h1]
  have hnot : Enrollment.mk sid cid ∉ st.enrollments := fun hm => h ⟨_, hm, rfl, rfl⟩
  simp [List.count_append, List.count_eq_zero_of_not_mem hnot]

theorem enroll_twice_rejected_witness :
    ¬ sampleStore.enrolled "S2" "C2" ∧ sampleStore.hasStudent "S2" ∧
    sampleStore.hasCourse "C2" ∧
    (EnrollmentRepository.enroll sampleStore "S2" "C2").1 = .ok () ∧
    EnrollmentRepository.enroll (EnrollmentRepository.enroll sampleStore "S2" "C2").2 "S2" "C2"
      = (.error ("选课失败：" ++ "已选该课程，无需重复选课"),
          (EnrollmentRepository.enroll sampleStore "S2" "C2").2) ∧
    (EnrollmentRepository.enroll
        (EnrollmentRepository.enroll sampleStore "S2" "C2").2 "S2" "C2").2.enrollments.count
      (Enrollment.mk "S2" "C2") = 1 :=
  ⟨by decide, by decide, by decide,
    enroll_twice_rejected sampleStore "S2" "C2" (by decide) (by decide) (by decide)⟩

/-- C3 as first stated fails: in the empty store the pair `("S9", "C9")` is not enrolled,
yet the first `enroll` does not succeed.  Its `INSERT` names a student and a course that
do not exist, the database refuses it, the method throws with its own prefix, the store
stays empty, and so no row for the pair exists after a second `enroll` either. -/
theorem enroll_unknown_pair_refused :
    ¬ Store.empty.enrolled "S9" "C9" ∧
    EnrollmentRepository.enroll Store.empty "S9" "C9"
      = (.error ("选课失败：" ++ foreignKeyViolation "enrollments"), Store.empty) ∧
    (EnrollmentRepository.enroll Store.empty "S9" "C9").1 ≠ .ok () ∧
    (EnrollmentRepository.enroll
        (EnrollmentRepository.enroll Store.empty "S9" "C9").2 "S9" "C9").2.enrollments.count
      (Enrollment.mk "S9" "C9") = 0 := by
  have h1 : EnrollmentRepository.enroll Store.empty "S9" "C9"
      = (.error ("选课失败：" ++ foreignKeyViolation "enrollments"), Store.empty) := rfl
  refine ⟨by decide, h1, ?_, ?_⟩
  · rw [h1]
    intro hc
    cases hc
  · rw [h1, h1]
    rfl

/-- C4: for every store and every pair `(studentId, courseId)` that has an `enrollments`
row, `EnrollmentRepository::dropCourse` succeeds, afterwards neither an `enrollments` row
nor a `scores` row for the pair exists (whether or not a score was there before), and an
immediately following `dropCourse` of the same pair fails with the not-enrolled error. -/
theorem dropCourse_removes_pair (st : Store) (sid cid : String) (h : st.enrolled sid cid) :
    (EnrollmentRepository.dropCourse st sid cid).1 = .ok () ∧
    ¬ (EnrollmentRepository.dropCourse st sid cid).2.enrolled sid cid ∧
    ¬ (EnrollmentRepository.dropCourse st sid cid).2.scored sid cid ∧
    EnrollmentRepository.dropCourse (EnrollmentRepository.dropCourse st sid cid).2 sid cid
      = (.error ("退课失败：" ++ "未选该课程，无法退课"),
          (EnrollmentRepository.dropCourse st sid cid).2) := by
  have h1 := dropCourse_enrolled_eq st sid cid h
  have hne : ¬ (EnrollmentRepository.dropCourse st sid cid).2.enrolled sid cid := by
    rw [h1]
    rintro ⟨e, he, h1, h2⟩
    simp only [List.mem_filter] at he
    simp [h1, h2] at he
  refine ⟨by rw [h1], hne, ?_, dropCourse_not_enrolled_eq _ sid cid hne⟩
  rw [h1]
  rintro ⟨r, hr, h1, h2⟩
  simp only [List.mem_filter] at hr
  simp [h1, h2] at hr

theorem dropCourse_removes_pair_witness :
    sampleStore.enrolled "S1" "C1" ∧
    (EnrollmentRepository.dropCourse sampleStore "S1" "C1").1 = .ok () ∧
    ¬ (EnrollmentRepository.dropCourse sampleStore "S1" "C1").2.enrolled "S1" "C1" ∧
    ¬ (EnrollmentRepository.dropCourse sampleStore "S1" "C1").2.scored "S1" "C1" ∧
    EnrollmentRepository.dropCourse
        (EnrollmentRepository.dropCourse sampleStore "S1" "C1").2 "S1" "C1"
      = (.error ("退课失败：" ++ "未选该课程，无法退课"),
          (EnrollmentRepository.dropCourse sampleStore "S1" "C1").2) :=
  ⟨by decide, dropCourse_removes_pair sampleStore "S1" "C1" (by decide)⟩

/-! ## Upsert of a score -/

theorem scores_pair_at_most_one (l : List Score)
    (h : (l.map (fun r => (r.studentId, r.courseId))).Nodup) (sid cid : String) :
    (l.filter (fun r => r.studentId == sid && r.courseId == cid)).length ≤ 1 := by
  induction l with
  | nil => simp
  | cons a t ih =>
    rw [List.map_cons, List.nodup_cons] at h
    cases hp : (a.studentId == sid && a.courseId == cid) with
    | true =>
      have hnil : t.filter (fun r => r.studentId == sid && r.courseId == cid) = [] := by
        rw [List.filter_eq_nil_iff]
        intro r hr hc
        simp only [Bool.and_eq_true, beq_iff_eq] at hp hc
        apply h.1
        rw [List.mem_map]
        exact ⟨r, hr, by rw [hp.1, hp.2, hc.1, hc.2]⟩
      simp [List.filter_cons, hp, hnil]
    | false =>
      simpa [List.filter_cons, hp] using ih h.2

theorem scores_update_pair (l : List Score) (sid cid : String) (v : ℚ) :
    (l.map (fun r =>
        if r.studentId == sid && r.courseId == cid then { r with score := v } else r)).filter
      (fun r => r.studentId == sid && r.courseId == cid)
    = (l.filter (fun r => r.studentId == sid && r.courseId == cid)).map
        (fun _ => Score.mk sid cid v) := by
  induction l with
  | nil => rfl
  | cons a t ih =>
    cases hp : (a.studentId == sid && a.courseId == cid) with
    | true =>
      have hp2 := hp
      simp only [Bool.and_eq_true, beq_iff_eq] at hp2
      simp only [List.map_cons, List.filter_cons, hp, if_true, ih]
      simp [hp2.1, hp2.2]
    | false =>
      simp only [List.map_cons, List.filter_cons, hp, Bool.false_eq_true, if_false, ih]

theorem scores_update_others (l : List Score) (sid cid : String) (v : ℚ) :
    (l.map (fun r =>
        if r.studentId == sid && r.courseId == cid then { r with score := v } else r)).filter
      (fun r => !(r.studentId == sid && r.courseId == cid))
    = l.filter (fun r => !(r.studentId == sid && r.courseId == cid)) := by
  induction l with
  | nil => rfl
  | cons a t ih =>
    cases hp : (a.studentId == sid && a.courseId == cid) with
    | true =>
      simp only [List.map_cons, List.filter_cons, hp, if_true, Bool.not_true,
        Bool.false_eq_true, if_false, ih]
    | false =>
      simp only [List.map_cons, List.filter_cons, hp, Bool.false_eq_true, if_false,
        Bool.not_false, if_true, ih]

/-- C5: in a store whose `scores` rows have unique `(student_id, course_id)` keys, for
every enrolled pair and every value `v`, `ScoreRepository::setScore` succeeds; afterwards
the rows of `scores` for that pair are exactly one row, with score `v` (inserted when
there was none, overwritten when there was one), the `scores` rows of every other pair
are the same rows as before, and no other table changes. -/
theorem setScore_upsert (st : Store) (sid cid : String) (v : ℚ)
    (hkey : ScoreKey st) (hen : st.enrolled sid cid) :
    (ScoreRepository.setScore st (Score.mk sid cid v)).1 = .ok () ∧
    (ScoreRepository.setScore st (Score.mk sid cid v)).2.scores.filter
        (fun r => r.studentId == sid && r.courseId == cid) = [Score.mk sid cid v] ∧
    (ScoreRepository.setScore st (Score.mk sid cid v)).2.scores.filter
        (fun r => !(r.studentId == sid && r.courseId == cid))
      = st.scores.filter (fun r => !(r.studentId == sid && r.courseId == cid)) ∧
    (ScoreRepository.setScore st (Score.mk sid cid v)).2.students = st.students ∧
    (ScoreRepository.setScore st (Score.mk sid cid v)).2.teachers = st.teachers ∧
    (ScoreRepository.setScore st (Score.mk sid cid v)).2.courses = st.courses ∧
    (ScoreRepository.setScore st (Score.mk sid cid v)).2.enrollments = st.enrollments := by
  rw [setScore_enrolled_eq st (Score.mk sid cid v) hen]
  refine ⟨rfl, ?_, ?_, rfl, rfl, rfl, rfl⟩
  · by_cases hany : st.scores.any (fun r => r.studentId == sid && r.courseId == cid) = true
    · simp only [hany, if_true]
      rw [scores_update_pair]
      have hle := scores_pair_at_most_one st.scores hkey sid cid
      obtain ⟨r, hr, hp⟩ := List.any_eq_true.1 hany
      have hmem : r ∈ st.scores.filter (fun r => r.studentId == sid && r.courseId == cid) :=
        List.mem_filter.2 ⟨hr, hp⟩
      cases hf : st.scores.filter (fun r => r.studentId == sid && r.courseId == cid) with
      | nil => rw [hf] at hmem; exact absurd hmem (List.not_mem_nil _)
      | cons a t =>
        rw [hf] at hle
        cases t with
        | nil => rfl
        | cons b u => simp at hle
    · simp only [hany, if_false, Bool.false_eq_true]
      have hnil : st.scores.filter (fun r => r.studentId == sid && r.courseId == cid) = [] := by
        rw [List.filter_eq_nil_iff]
        intro r hr hp
        exact hany (List.any_eq_true.2 ⟨r, hr, hp⟩)
      rw [List.filter_append, hnil]
      simp
  · by_cases hany : st.scores.any (fun r => r.studentId == sid && r.courseId == cid) = true
    · simp only [hany, if_true]
      exact scores_update_others st.scores sid cid v
    · simp only [hany, if_false, Bool.false_eq_true]
      rw [List.filter_append]
      simp

theorem setScore_upsert_witness :
    ScoreKey sampleStore ∧ sampleStore.enrolled "S1" "C1" ∧
    (ScoreRepository.setScore sampleStore (Score.mk "S1" "C1" 95)).1 = .ok () ∧
    (ScoreRepository.setScore sampleStore (Score.mk "S1" "C1" 95)).2.scores.filter
        (fun r => r.studentId == "S1" && r.courseId == "C1") = [Score.mk "S1" "C1" 95] ∧
    (ScoreRepository.setScore sampleStore (Score.mk "S1" "C1" 95)).2.scores.filter
        (fun r => !(r.studentId == "S1" && r.courseId == "C1"))
      = sampleStore.scores.filter (fun r => !(r.studentId == "S1" && r.courseId == "C1")) ∧
    (ScoreRepository.setScore sampleStore (Score.mk "S1" "C1" 95)).2.students
      = sampleStore.students ∧
    (ScoreRepository.setScore sampleStore (Score.mk "S1" "C1" 95)).2.teachers
      = sampleStore.teachers ∧
    (ScoreRepository.setScore sampleStore (Score.mk "S1" "C1" 95)).2.courses
      = sampleStore.courses ∧
    (ScoreRepository.setScore sampleStore (Score.mk "S1" "C1" 95)).2.enrollments
      = sampleStore.enrollments :=
  ⟨by decide, by decide, setScore_upsert sampleStore "S1" "C1" 95 (by decide) (by decide)⟩

/-! ## Idempotent insert -/

theorem students_id_at_most_one (l : List Student) (h : (l.map (fun r => r.id)).Nodup)
    (id : String) : l.countP (fun r => r.id == id) ≤ 1 := by
  have hc := List.nodup_iff_count_le_one.1 h id
  rw [List.count, List.countP_map] at hc
  simpa [Function.comp] using hc

theorem addStudent_eq (st : Store) (student : Student) :
    StudentRepository.addStudent st student
      = (.ok (),
          { st with
            students :=
              if st.students.any (fun r => r.id == student.id) then st.students
              else st.students ++ [student] }) := rfl

/-- C6: for every store whose `students` rows have unique ids and every two `Student`
values with the same id, `StudentRepository::addStudent` of the first followed by
`addStudent` of the second both succeed, the store after the second call equals the store
after the first, and `students` holds exactly one row with that id. -/
theorem addStudent_idempotent (st : Store) (s1 s2 : Student) (hid : s1.id = s2.id)
    (hkey : StudentKey st) :
    (StudentRepository.addStudent st s1).1 = .ok () ∧
    (StudentRepository.addStudent (StudentRepository.addStudent st s1).2 s2).1 = .ok () ∧
    (StudentRepository.addStudent (StudentRepository.addStudent st s1).2 s2).2
      = (StudentRepository.addStudent st s1).2 ∧
    (StudentRepository.addStudent (StudentRepository.addStudent st s1).2 s2).2.students.countP
      (fun r => r.id == s1.id) = 1 := by
  have hany : (StudentRepository.addStudent st s1).2.students.any (fun r => r.id == s2.id)
      = true := by
    rw [addStudent_eq, ← hid]
    cases h : st.students.any (fun r => r.id == s1.id) with
    | true => simpa using h
    | false => simp
  have h2 : (StudentRepository.addStudent (StudentRepository.addStudent st s1).2 s2).2
      = (StudentRepository.addStudent st s1).2 := by
    rw [addStudent_eq (StudentRepository.addStudent st s1).2 s2]
    simp only [hany, if_true]
  refine ⟨rfl, rfl, h2, ?_⟩
  rw [h2, addStudent_eq]
  cases h : st.students.any (fun r => r.id == s1.id) with
  | true =>
    simp only [if_true]
    have hle := students_id_at_most_one st.students hkey s1.id
    have hpos : 0 < st.students.countP (fun r => r.id == s1.id) := by
      rw [List.countP_pos_iff]
      obtain ⟨r, hr, hp⟩ := List.any_eq_true.1 h
      exact ⟨r, hr, hp⟩
    omega
  | false =>
    simp only [Bool.false_eq_true, if_false]
    have hzero : st.students.countP (fun r => r.id == s1.id) = 0 := by
      rw [List.countP_eq_zero]
      intro r hr hp
      have ht : st.students.any (fun r => r.id == s1.id) = true :=
        List.any_eq_true.2 ⟨r, hr, hp⟩
      rw [h] at ht
      exact Bool.false_ne_true ht
    rw [List.countP_append, hzero]
    simp

theorem addStudent_idempotent_witness :
    (Student.mk "S1" "Li" "CS").id = (Student.mk "S1" "Lin" "EE").id ∧
    StudentKey sampleStore ∧
    (StudentRepository.addStudent sampleStore ⟨"S1", "Li", "CS"⟩).1 = .ok () ∧
    (StudentRepository.addStudent
        (StudentRepository.addStudent sampleStore ⟨"S1", "Li", "CS"⟩).2
        ⟨"S1", "Lin", "EE"⟩).1 = .ok () ∧
    (StudentRepository.addStudent
        (StudentRepository.addStudent sampleStore ⟨"S1", "Li", "CS"⟩).2
        ⟨"S1", "Lin", "EE"⟩).2
      = (StudentRepository.addStudent sampleStore ⟨"S1", "Li", "CS"⟩).2 ∧
    (StudentRepository.addStudent
        (StudentRepository.addStudent sampleStore ⟨"S1", "Li", "CS"⟩).2
        ⟨"S1", "Lin", "EE"⟩).2.students.countP
      (fun r => r.id == (Student.mk "S1" "Li" "CS").id) = 1 :=
  ⟨rfl, by decide,
    addStudent_idempotent sampleStore ⟨"S1", "Li", "CS"⟩ ⟨"S1", "Lin", "EE"⟩ rfl (by decide)⟩

/-! ## Existence checks of the controllers -/

theorem addCourse_eq (st : Store) (course : Course) (ht : st.hasTeacher course.teacherId) :
    CourseRepository.addCourse st course
      = (.ok (),
          { st with
            courses :=
              if st.courses.any (fun r => r.id == course.id) then st.courses
              else st.courses ++ [course] }) := by
  have h1 := (teachers_any_id st course.teacherId).2 ht
  by_cases hany : st.courses.any (fun r => r.id == course.id) = true
  · simp only [CourseRepository.addCourse, hany, if_true, Outcome.rethrow]
  · simp only [CourseRepository.addCourse, hany, h1, Bool.false_eq_true, if_false, if_true,
      Outcome.rethrow]

theorem addCourse_store_cases (st : Store) (course : Course) :
    (CourseRepository.addCourse st course).2 = st ∨
    (st.hasTeacher course.teacherId ∧
      (CourseRepository.addCourse st course).2
        = { st with courses := st.courses ++ [course] }) := by
  by_cases hany : st.courses.any (fun r => r.id == course.id) = true
  · left
    simp only [CourseRepository.addCourse, hany, if_true, Outcome.rethrow]
  · by_cases ht : st.teachers.any (fun r => r.id == course.teacherId) = true
    · right
      refine ⟨(teachers_any_id st course.teacherId).1 ht, ?_⟩
      simp only [CourseRepository.addCourse, hany, ht, Bool.false_eq_true, if_false, if_true,
        Outcome.rethrow]
    · left
      simp only [CourseRepository.addCourse, hany, ht, Bool.false_eq_true, if_false,
        Outcome.rethrow]

/-- C7: for every store and every course `(id, name, credit, teacherId)`,
`CourseController::addCourse` fails with the teacher-not-found error exactly when no
`teachers` row has id `teacherId`, and then leaves the store unchanged (no `courses` row is
inserted); when the teacher exists it is the repository insert, which succeeds. -/
theorem addCourse_teacher_check (st : Store) (id name : String) (credit : Int) (tid : String) :
    ((CourseController.addCourse st id name credit tid).1
        = .error ("查询教师失败：" ++ ("教师ID【" ++ tid ++ "】不存在")) ↔ ¬ st.hasTeacher tid) ∧
    (¬ st.hasTeacher tid → (CourseController.addCourse st id name credit tid).2 = st) ∧
    (st.hasTeacher tid →
      CourseController.addCourse st id name credit tid
          = CourseRepository.addCourse st (Course.mk id name credit tid) ∧
      (CourseController.addCourse st id name credit tid).1 = .ok ()) := by
  by_cases h : st.hasTeacher tid
  · obtain ⟨t, ht, -, -⟩ := getTeacherById_present st tid h
    have heq : CourseController.addCourse st id name credit tid
        = CourseRepository.addCourse st (Course.mk id name credit tid) := by
      simp only [CourseController.addCourse, ht, Outcome.andThen]
    have hok : (CourseController.addCourse st id name credit tid).1 = .ok () := by
      rw [heq, addCourse_eq st (Course.mk id name credit tid) h]
    refine ⟨⟨fun he => ?_, fun hn => absurd h hn⟩, fun hn => absurd h hn, fun _ => ⟨heq, hok⟩⟩
    rw [hok] at he
    cases he
  · have heq : CourseController.addCourse st id name credit tid
        = (.error ("查询教师失败：" ++ ("教师ID【" ++ tid ++ "】不存在")), st) := by
      simp only [CourseController.addCourse, getTeacherById_absent st tid h, Outcome.andThen]
    refine ⟨⟨fun _ => h, fun _ => by rw [heq]⟩, fun _ => by rw [heq], fun hp => absurd hp h⟩

/-- C9: for every store and every id, `StudentRepository::deleteStudent(id)` fails with the
student-not-found error if and only if no `students` row has that id, and
`CourseRepository::deleteCourse(id)` fails with the course-not-found error if and only if
no `courses` row has that id; a delete that does not fail succeeds, and a failing delete
leaves the whole store unchanged. -/
theorem delete_absent_id (st : Store) (id : String) :
    ((StudentRepository.deleteStudent st id).1
        = .error ("删除学生失败：" ++ ("查询学生失败：" ++ ("学生ID【" ++ id ++ "】不存在")))
      ↔ ¬ st.hasStudent id) ∧
    (st.hasStudent id → (StudentRepository.deleteStudent st id).1 = .ok ()) ∧
    (¬ st.hasStudent id → (StudentRepository.deleteStudent st id).2 = st) ∧
    ((CourseRepository.deleteCourse st id).1
        = .error ("删除课程失败：" ++ ("查询课程失败：" ++ ("课程ID【" ++ id ++ "】不存在")))
      ↔ ¬ st.hasCourse id) ∧
    (st.hasCourse id → (CourseRepository.deleteCourse st id).1 = .ok ()) ∧
    (¬ st.hasCourse id → (CourseRepository.deleteCourse st id).2 = st) := by
  refine ⟨⟨fun he hp => ?_, fun hn => by rw [deleteStudent_absent st id hn]⟩,
    fun hp => by rw [deleteStudent_present st id hp],
    fun hn => by rw [deleteStudent_absent st id hn],
    ⟨fun he hp => ?_, fun hn => by rw [deleteCourse_absent st id hn]⟩,
    fun hp => by rw [deleteCourse_present st id hp],
    fun hn => by rw [deleteCourse_absent st id hn]⟩
  · rw [deleteStudent_present st id hp] at he
    cases he
  · rw [deleteCourse_present st id hp] at he
    cases he

/-- C10: for every store and every pair `(studentId, courseId)`,
`CourseController::enrollStudent` and `ScoreController::inputScore` fail with the
student-not-found error when the student does not exist, fail with the course-not-found
error when the student exists but the course does not, and leave the store unchanged in
both cases; when both exist each of them is exactly the repository call `enroll`,
respectively `setScore`, on the same store. -/
theorem controller_existence_checks (st : Store) (sid cid : String) (v : ℚ) :
    (¬ st.hasStudent sid →
      CourseController.enrollStudent st sid cid
          = (.error ("查询学生失败：" ++ ("学生ID【" ++ sid ++ "】不存在")), st) ∧
      ScoreController.inputScore st sid cid v
          = (.error ("查询学生失败：" ++ ("学生ID【" ++ sid ++ "】不存在")), st)) ∧
    (st.hasStudent sid → ¬ st.hasCourse cid →
      CourseController.enrollStudent st sid cid
          = (.error ("查询课程失败：" ++ ("课程ID【" ++ cid ++ "】不存在")), st) ∧
      ScoreController.inputScore st sid cid v
          = (.error ("查询课程失败：" ++ ("课程ID【" ++ cid ++ "】不存在")), st)) ∧
    (st.hasStudent sid → st.hasCourse cid →
      CourseController.enrollStudent st sid cid = EnrollmentRepository.enroll st sid cid ∧
      ScoreController.inputScore st sid cid v
          = ScoreRepository.setScore st (Score.mk sid cid v)) := by
  refine ⟨fun hs => ?_, fun hs hc => ?_, fun hs hc => ?_⟩
  · constructor
    · simp only [CourseController.enrollStudent, getStudentById_absent st sid hs,
        Outcome.andThen]
    · simp only [ScoreController.inputScore, getStudentById_absent st sid hs, Outcome.andThen]
  · obtain ⟨s, hget, -, -⟩ := getStudentById_present st sid hs
    constructor
    · simp only [CourseController.enrollStudent, hget, getCourseById_absent st cid hc,
        Outcome.andThen]
    · simp only [ScoreController.inputScore, hget, getCourseById_absent st cid hc,
        Outcome.andThen]
  · obtain ⟨s, hget, -, -⟩ := getStudentById_present st sid hs
    obtain ⟨c, hgetc, -, -⟩ := getCourseById_present st cid hc
    constructor
    · simp only [CourseController.enrollStudent, hget, hgetc, Outcome.andThen]
    · simp only [ScoreController.inputScore, hget, hgetc, Outcome.andThen]

/-! ## A score only for an enrolled pair -/

theorem scoreRequiresEnrollment_of_tables (st st1 : Store)
    (hs : ∀ r ∈ st1.scores, r ∈ st.scores) (he : ∀ e ∈ st.enrollments, e ∈ st1.enrollments)
    (h : ScoreRequiresEnrollment st) : ScoreRequiresEnrollment st1 := by
  intro r hr
  obtain ⟨e, hmem, h1, h2⟩ := h r (hs r hr)
  exact ⟨e, he e hmem, h1, h2⟩

theorem deleteStudent_keeps_invariant (st : Store) (id : String)
    (h : ScoreRequiresEnrollment st) :
    ScoreRequiresEnrollment (StudentRepository.deleteStudent st id).2 := by
  by_cases hp : st.hasStudent id
  · rw [deleteStudent_present st id hp]
    intro r hr
    simp only [List.mem_filter, Bool.not_eq_true', beq_eq_false_iff_ne, ne_eq] at hr
    obtain ⟨e, hmem, h1, h2⟩ := h r hr.1
    refine ⟨e, ?_, h1, h2⟩
    simp only [List.mem_filter, Bool.not_eq_true', beq_eq_false_iff_ne, ne_eq]
    exact ⟨hmem, by rw [h1]; exact hr.2⟩
  · rw [deleteStudent_absent st id hp]
    exact h

theorem deleteCourse_keeps_invariant (st : Store) (id : String)
    (h : ScoreRequiresEnrollment st) :
    ScoreRequiresEnrollment (CourseRepository.deleteCourse st id).2 := by
  by_cases hp : st.hasCourse id
  · rw [deleteCourse_present st id hp]
    intro r hr
    simp only [List.mem_filter, Bool.not_eq_true', beq_eq_false_iff_ne, ne_eq] at hr
    obtain ⟨e, hmem, h1, h2⟩ := h r hr.1
    refine ⟨e, ?_, h1, h2⟩
    simp only [List.mem_filter, Bool.not_eq_true', beq_eq_false_iff_ne, ne_eq]
    exact ⟨hmem, by rw [h2]; exact hr.2⟩
  · rw [deleteCourse_absent st id hp]
    exact h

theorem setScore_keeps_invariant (st : Store) (score : Score)
    (h : ScoreRequiresEnrollment st) :
    ScoreRequiresEnrollment (ScoreRepository.setScore st score).2 := by
  by_cases hen : st.enrolled score.studentId score.courseId
  · rw [setScore_enrolled_eq st score hen]
    intro r hr
    show st.enrolled r.studentId r.courseId
    by_cases hany : st.scores.any
        (fun r => r.studentId == score.studentId && r.courseId == score.courseId) = true
    · simp only [hany, if_true, List.mem_map] at hr
      obtain ⟨r0, hr0, hup⟩ := hr
      have hk : r.studentId = r0.studentId ∧ r.courseId = r0.courseId := by
        by_cases hc : (r0.studentId == score.studentId && r0.courseId == score.courseId) = true
        · rw [if_pos hc] at hup
          subst hup
          exact ⟨rfl, rfl⟩
        · rw [if_neg hc] at hup
          subst hup
          exact ⟨rfl, rfl⟩
      rw [hk.1, hk.2]
      exact h r0 hr0
    · simp only [hany, Bool.false_eq_true, if_false, List.mem_append, List.mem_singleton] at hr
      rcases hr with hr | hr
      · exact h r hr
      · subst hr
        exact hen
  · rw [setScore_not_enrolled_eq st score hen]
    exact h

theorem enroll_keeps_invariant (st : Store) (sid cid : String)
    (h : ScoreRequiresEnrollment st) :
    ScoreRequiresEnrollment (EnrollmentRepository.enroll st sid cid).2 := by
  rcases enroll_store_cases st sid cid with he | ⟨-, -, he⟩
  · rw [he]
    exact h
  · rw [he]
    exact scoreRequiresEnrollment_of_tables st _ (fun _ hr => hr)
      (fun e he => List.mem_append_left _ he) h

theorem dropCourse_keeps_invariant (st : Store) (sid cid : String)
    (h : ScoreRequiresEnrollment st) :
    ScoreRequiresEnrollment (EnrollmentRepository.dropCourse st sid cid).2 := by
  by_cases hen : st.enrolled sid cid
  · rw [dropCourse_enrolled_eq st sid cid hen]
    intro r hr
    simp only [List.mem_filter] at hr
    obtain ⟨e, hmem, h1, h2⟩ := h r hr.1
    refine ⟨e, ?_, h1, h2⟩
    simp only [List.mem_filter]
    refine ⟨hmem, ?_⟩
    rw [h1, h2]
    exact hr.2
  · rw [dropCourse_not_enrolled_eq st sid cid hen]
    exact h

theorem repoOp_keeps_invariant (op : RepoOp) (st : Store) (h : ScoreRequiresEnrollment st) :
    ScoreRequiresEnrollment (op.run st).2 := by
  cases op with
  | addStudent student => exact h
  | addTeacher teacher => exact h
  | addCourse course =>
    show ScoreRequiresEnrollment (CourseRepository.addCourse st course).2
    rcases addCourse_store_cases st course with he | ⟨-, he⟩
    · rw [he]
      exact h
    · rw [he]
      exact h
  | deleteStudent id => exact deleteStudent_keeps_invariant st id h
  | deleteCourse id => exact deleteCourse_keeps_invariant st id h
  | setScore score => exact setScore_keeps_invariant st score h
  | enroll sid cid => exact enroll_keeps_invariant st sid cid h
  | dropCourse sid cid => exact dropCourse_keeps_invariant st sid cid h

theorem runRepoOps_keeps_invariant (ops : List RepoOp) (st : Store)
    (h : ScoreRequiresEnrollment st) : ScoreRequiresEnrollment (runRepoOps ops st) := by
  induction ops generalizing st with
  | nil => exact h
  | cons op rest ih => exact ih _ (repoOp_keeps_invariant op st h)

/-- C8: the predicate that every `scores` row has an `enrollments` row for the same pair is
preserved by every state-changing repository method (`addStudent`, `addTeacher`,
`addCourse`, `deleteStudent`, `deleteCourse`, `setScore`, `enroll`, `dropCourse`), whether
the call succeeds or fails; hence it holds in every store reached from the empty store by
any sequence of such calls. -/
theorem score_requires_enrollment_invariant :
    (∀ (op : RepoOp) (st : Store),
      ScoreRequiresEnrollment st → ScoreRequiresEnrollment (op.run st).2) ∧
    (∀ ops : List RepoOp, ScoreRequiresEnrollment (runRepoOps ops Store.empty)) := by
  refine ⟨repoOp_keeps_invariant, fun ops => runRepoOps_keeps_invariant ops Store.empty ?_⟩
  intro r hr
  exact absurd hr (List.not_mem_nil r)

/-! ## The keys named by `ON CONFLICT` hold in every reachable store

The hypotheses `StudentKey` and `ScoreKey` of the statements on `addStudent` and
`setScore` are facts about every database these methods ever see: the empty database
satisfies them and each repository call keeps them. -/

theorem addStudent_keeps_studentKey (st : Store) (student : Student) (h : StudentKey st) :
    StudentKey (StudentRepository.addStudent st student).2 := by
  rw [addStudent_eq]
  unfold StudentKey at h ⊢
  by_cases hany : st.students.any (fun r => r.id == student.id) = true
  · simp only [hany, if_true]
    exact h
  · simp only [hany, Bool.false_eq_true, if_false, List.map_append, List.map_cons, List.map_nil]
    rw [List.nodup_append]
    refine ⟨h, List.nodup_singleton _, ?_⟩
    intro k hk hk2
    rw [List.mem_singleton] at hk2
    rw [List.mem_map] at hk
    obtain ⟨r, hr, hrk⟩ := hk
    exact hany (List.any_eq_true.2 ⟨r, hr, by simp [hrk, hk2]⟩)

theorem setScore_keeps_scoreKey (st : Store) (score : Score) (h : ScoreKey st) :
    ScoreKey (ScoreRepository.setScore st score).2 := by
  by_cases hen : st.enrolled score.studentId score.courseId
  · rw [setScore_enrolled_eq st score hen]
    unfold ScoreKey at h ⊢
    by_cases hany : st.scores.any
        (fun r => r.studentId == score.studentId && r.courseId == score.courseId) = true
    · simp only [hany, if_true, List.map_map]
      have hfun : ((fun r : Score => (r.studentId, r.courseId)) ∘ fun r : Score =>
            if (r.studentId == score.studentId && r.courseId == score.courseId) = true
            then { r with score := score.score } else r)
          = fun r : Score => (r.studentId, r.courseId) := by
        funext r
        simp only [Function.comp]
        split <;> rfl
      rw [hfun]
      exact h
    · simp only [hany, Bool.false_eq_true, if_false, List.map_append, List.map_cons,
        List.map_nil]
      rw [List.nodup_append]
      refine ⟨h, List.nodup_singleton _, ?_⟩
      intro k hk hk2
      rw [List.mem_singleton] at hk2
      rw [List.mem_map] at hk
      obtain ⟨r, hr, hrk⟩ := hk
      rw [hk2, Prod.mk.injEq] at hrk
      exact hany (List.any_eq_true.2 ⟨r, hr, by simp [hrk.1, hrk.2]⟩)
  · rw [setScore_not_enrolled_eq st score hen]
    exact h

theorem repoOp_keeps_keys (op : RepoOp) (st : Store) (h : StudentKey st ∧ ScoreKey st) :
    StudentKey (op.run st).2 ∧ ScoreKey (op.run st).2 := by
  cases op with
  | addStudent student => exact ⟨addStudent_keeps_studentKey st student h.1, h.2⟩
  | addTeacher teacher => exact h
  | addCourse course =>
    show StudentKey (CourseRepository.addCourse st course).2 ∧
      ScoreKey (CourseRepository.addCourse st course).2
    rcases addCourse_store_cases st course with he | ⟨-, he⟩
    · rw [he]
      exact h
    · rw [he]
      exact h
  | deleteStudent id =>
    by_cases hp : st.hasStudent id
    · simp only [RepoOp.run, deleteStudent_present st id hp]
      exact ⟨h.1.sublist ((List.filter_sublist _).map _), h.2.sublist ((List.filter_sublist _).map _)⟩
    · simp only [RepoOp.run, deleteStudent_absent st id hp]
      exact h
  | deleteCourse id =>
    by_cases hp : st.hasCourse id
    · simp only [RepoOp.run, deleteCourse_present st id hp]
      exact ⟨h.1, h.2.sublist ((List.filter_sublist _).map _)⟩
    · simp only [RepoOp.run, deleteCourse_absent st id hp]
      exact h
  | setScore score => exact ⟨by
      by_cases hen : st.enrolled score.studentId score.courseId
      · simp only [RepoOp.run, setScore_enrolled_eq st score hen]
        exact h.1
      · simp only [RepoOp.run, setScore_not_enrolled_eq st score hen]
        exact h.1, setScore_keeps_scoreKey st score h.2⟩
  | enroll sid cid =>
    show StudentKey (EnrollmentRepository.enroll st sid cid).2 ∧
      ScoreKey (EnrollmentRepository.enroll st sid cid).2
    rcases enroll_store_cases st sid cid with he | ⟨-, -, he⟩
    · rw [he]
      exact h
    · rw [he]
      exact h
  | dropCourse sid cid =>
    by_cases hen : st.enrolled sid cid
    · simp only [RepoOp.run, dropCourse_enrolled_eq st sid cid hen]
      exact ⟨h.1, h.2.sublist ((List.filter_sublist _).map _)⟩
    · simp only [RepoOp.run, dropCourse_not_enrolled_eq st sid cid hen]
      exact h

theorem runRepoOps_keeps_keys (ops : List RepoOp) (st : Store)
    (h : StudentKey st ∧ ScoreKey st) :
    StudentKey (runRepoOps ops st) ∧ ScoreKey (runRepoOps ops st) := by
  induction ops generalizing st with
  | nil => exact h
  | cons op rest ih => exact ih _ (repoOp_keeps_keys op st h)

theorem reachable_store_keys (ops : List RepoOp) :
    StudentKey (runRepoOps ops Store.empty) ∧ ScoreKey (runRepoOps ops Store.empty) :=
  runRepoOps_keeps_keys ops Store.empty ⟨List.nodup_nil, List.nodup_nil⟩

/-! ## Scores of a student, ordered by course -/

theorem score_rebuild_rows (l : List Score) :
    l.map (fun row => Score.mk row.studentId row.courseId row.score) = l := by
  induction l with
  | nil => rfl
  | cons a t ih => rw [List.map_cons, ih]

theorem getScoresByStudentId_none (col : Collation) (st : Store) (sid : String)
    (h : st.scores.filter (fun r => r.studentId == sid) = []) :
    ScoreRepository.getScoresByStudentId col st sid
      = (.error ("查询成绩失败：" ++ "该学生暂无成绩记录"), st) := by
  simp [ScoreRepository.getScoresByStudentId, h, Outcome.rethrow]

theorem getScoresByStudentId_some (col : Collation) (st : Store) (sid : String)
    (h : st.scores.filter (fun r => r.studentId == sid) ≠ []) :
    ScoreRepository.getScoresByStudentId col st sid
      = (.ok ((st.scores.filter (fun r => r.studentId == sid)).insertionSort
          (fun a b => col.le a.courseId b.courseId = true)), st) := by
  have hne : ((st.scores.filter (fun r => r.studentId == sid)).insertionSort
      (fun a b => col.le a.courseId b.courseId = true)).isEmpty = false := by
    rw [List.isEmpty_eq_false]
    intro hc
    apply h
    rw [← List.length_eq_zero, ← List.length_insertionSort
      (fun a b : Score => col.le a.courseId b.courseId = true), hc]
    rfl
  simp only [ScoreRepository.getScoresByStudentId, score_rebuild_rows, hne, Bool.false_eq_true,
    if_false, Outcome.rethrow]

theorem scores_filter_student_nil (st : Store) (sid : String) :
    st.scores.filter (fun r => r.studentId == sid) = [] ↔ ¬ ∃ r ∈ st.scores, r.studentId = sid := by
  rw [List.filter_eq_nil_iff]
  constructor
  · rintro h ⟨r, hr, hid⟩
    exact h r hr (by simpa using hid)
  · intro h r hr hc
    exact h ⟨r, hr, by simpa using hc⟩

/-- C11: for every store, every student id and every collation of `course_id`,
`ScoreRepository::getScoresByStudentId` leaves the store unchanged, fails with the
no-scores error if and only if `scores` has no row for that student, and otherwise returns
a list that holds exactly the `scores` rows whose student id is the given one (each as
often as the table holds it, no other row) in ascending order of course id. -/
theorem getScoresByStudentId_rows (col : Collation) (st : Store) (sid : String) :
    (ScoreRepository.getScoresByStudentId col st sid).2 = st ∧
    ((ScoreRepository.getScoresByStudentId col st sid).1
        = .error ("查询成绩失败：" ++ "该学生暂无成绩记录")
      ↔ ¬ ∃ r ∈ st.scores, r.studentId = sid) ∧
    ((∃ r ∈ st.scores, r.studentId = sid) →
      ∃ rows, (ScoreRepository.getScoresByStudentId col st sid).1 = .ok rows ∧
        List.Perm rows (st.scores.filter (fun r => r.studentId == sid)) ∧
        (∀ r, r ∈ rows ↔ r ∈ st.scores ∧ r.studentId = sid) ∧
        List.Sorted (fun a b => col.le a.courseId b.courseId = true) rows) := by
  haveI : IsTotal Score (fun a b => col.le a.courseId b.courseId = true) :=
    ⟨fun a b => col.total a.courseId b.courseId⟩
  haveI : IsTrans Score (fun a b => col.le a.courseId b.courseId = true) :=
    ⟨fun a b c => col.trans a.courseId b.courseId c.courseId⟩
  by_cases h : st.scores.filter (fun r => r.studentId == sid) = []
  · have hno := (scores_filter_student_nil st sid).1 h
    rw [getScoresByStudentId_none col st sid h]
    exact ⟨rfl, ⟨fun _ => hno, fun _ => rfl⟩, fun hex => absurd hex hno⟩
  · have hex : ¬ ¬ ∃ r ∈ st.scores, r.studentId = sid :=
      fun hc => h ((scores_filter_student_nil st sid).2 hc)
    rw [getScoresByStudentId_some col st sid h]
    refine ⟨rfl, ⟨fun he => ?_, fun hc => absurd hc hex⟩, fun _ => ⟨_, rfl, ?_, ?_, ?_⟩⟩
    · cases he
    · exact List.perm_insertionSort _ _
    · intro r
      rw [List.mem_insertionSort, List.mem_filter]
      simp
    · exact List.sorted_insertionSort _ _

/-! ## Courses of a student, ordered by course -/

theorem collectCourses_all_present (st : Store) (cids : List String) (acc : List Course)
    (h : ∀ cid ∈ cids, st.hasCourse cid) :
    ∃ cs, EnrollmentRepository.collectCourses st cids acc = (.ok (acc ++ cs), st) ∧
      cs.map (fun c => c.id) = cids ∧ ∀ c ∈ cs, c ∈ st.courses := by
  induction cids generalizing acc with
  | nil => exact ⟨[], by simp [EnrollmentRepository.collectCourses], rfl, by simp⟩
  | cons cid rest ih =>
    obtain ⟨c, hget, hmem, hid⟩ := getCourseById_present st cid (h cid (List.mem_cons_self _ _))
    obtain ⟨cs, hrest, hids, hin⟩ :=
      ih (acc ++ [c]) (fun x hx => h x (List.mem_cons_of_mem _ hx))
    refine ⟨c :: cs, ?_, ?_, ?_⟩
    · simp only [EnrollmentRepository.collectCourses, hget, hrest, List.append_assoc,
        List.singleton_append]
    · rw [List.map_cons, hid, hids]
    · intro x hx
      rcases List.mem_cons.1 hx with hx | hx
      · rw [hx]; exact hmem
      · exact hin x hx

theorem enrollments_filter_student_nil (st : Store) (sid : String) :
    st.enrollments.filter (fun r => r.studentId == sid) = []
      ↔ ¬ ∃ e ∈ st.enrollments, e.studentId = sid := by
  rw [List.filter_eq_nil_iff]
  constructor
  · rintro h ⟨r, hr, hid⟩
    exact h r hr (by simpa using hid)
  · intro h r hr hc
    exact h ⟨r, hr, by simpa using hc⟩

/-- C12: in a store where the course id of every `enrollments` row names an existing
`courses` row, for every student id and every collation of `course_id`,
`EnrollmentRepository::getEnrolledCourses` leaves the store unchanged, fails with the
no-enrollments error when the student has no `enrollments` row, and otherwise returns
`Course` records taken from `courses`, one per `enrollments` row of the student (their ids
are the enrolled course ids, each as often as enrolled), in ascending order of course id. -/
theorem getEnrolledCourses_records (col : Collation) (st : Store) (sid : String)
    (href : ∀ e ∈ st.enrollments, st.hasCourse e.courseId) :
    (EnrollmentRepository.getEnrolledCourses col st sid).2 = st ∧
    ((¬ ∃ e ∈ st.enrollments, e.studentId = sid) →
      (EnrollmentRepository.getEnrolledCourses col st sid).1
        = .error ("查询选课记录失败：" ++ "该学生暂无选课记录")) ∧
    ((∃ e ∈ st.enrollments, e.studentId = sid) →
      ∃ cs, (EnrollmentRepository.getEnrolledCourses col st sid).1 = .ok cs ∧
        List.Perm (cs.map (fun c => c.id))
          ((st.enrollments.filter (fun r => r.studentId == sid)).map (fun r => r.courseId)) ∧
        (∀ c ∈ cs, c ∈ st.courses) ∧
        List.Sorted (fun a b => col.le a.id b.id = true) cs) := by
  haveI : IsTotal String (fun a b => col.le a b = true) := ⟨col.total⟩
  haveI : IsTrans String (fun a b => col.le a b = true) := ⟨col.trans⟩
  by_cases h : st.enrollments.filter (fun r => r.studentId == sid) = []
  · have hno := (enrollments_filter_student_nil st sid).1 h
    have heq : EnrollmentRepository.getEnrolledCourses col st sid
        = (.error ("查询选课记录失败：" ++ "该学生暂无选课记录"), st) := by
      simp [EnrollmentRepository.getEnrolledCourses, h, EnrollmentRepository.collectCourses,
        Outcome.andThen, Outcome.rethrow]
    rw [heq]
    exact ⟨rfl, fun _ => rfl, fun hex => absurd hex hno⟩
  · have hex : ¬ ¬ ∃ e ∈ st.enrollments, e.studentId = sid :=
      fun hc => h ((enrollments_filter_student_nil st sid).2 hc)
    have hall : ∀ cid ∈ ((st.enrollments.filter (fun r => r.studentId == sid)).map
        (fun r => r.courseId)).insertionSort (fun a b => col.le a b = true),
        st.hasCourse cid := by
      intro cid hcid
      rw [List.mem_insertionSort, List.mem_map] at hcid
      obtain ⟨e, he, hec⟩ := hcid
      rw [← hec]
      exact href e (List.mem_filter.1 he).1
    obtain ⟨cs, hcs, hids, hin⟩ := collectCourses_all_present st _ [] hall
    have hne : cs.isEmpty = false := by
      rw [List.isEmpty_eq_false]
      intro hc
      apply h
      have hlen := congrArg List.length hids
      simp only [hc, List.map_nil, List.length_nil, List.length_insertionSort,
        List.length_map] at hlen
      exact List.length_eq_zero.1 hlen.symm
    have heq : EnrollmentRepository.getEnrolledCourses col st sid = (.ok cs, st) := by
      simp only [EnrollmentRepository.getEnrolledCourses, hcs, List.nil_append, Outcome.andThen,
        hne, Bool.false_eq_true, if_false, Outcome.rethrow]
    rw [heq]
    refine ⟨rfl, fun hc => absurd hc hex, fun _ => ⟨cs, rfl, ?_, hin, ?_⟩⟩
    · rw [hids]
      exact List.perm_insertionSort _ _
    · have hs := List.sorted_insertionSort (fun a b => col.le a b = true)
        ((st.enrollments.filter (fun r => r.studentId == sid)).map (fun r => r.courseId))
      rw [← hids] at hs
      exact (List.pairwise_map.1 hs)

theorem getEnrolledCourses_records_witness :
    (∀ e ∈ sampleStore.enrollments, sampleStore.hasCourse e.courseId) ∧
    (EnrollmentRepository.getEnrolledCourses Collation.codepoint sampleStore "S1").2
      = sampleStore ∧
    ((¬ ∃ e ∈ sampleStore.enrollments, e.studentId = "S1") →
      (EnrollmentRepository.getEnrolledCourses Collation.codepoint sampleStore "S1").1
        = .error ("查询选课记录失败：" ++ "该学生暂无选课记录")) ∧
    ((∃ e ∈ sampleStore.enrollments, e.studentId = "S1") →
      ∃ cs, (EnrollmentRepository.getEnrolledCourses Collation.codepoint sampleStore "S1").1
          = .ok cs ∧
        List.Perm (cs.map (fun c => c.id))
          ((sampleStore.enrollments.filter (fun r => r.studentId == "S1")).map
            (fun r => r.courseId)) ∧
        (∀ c ∈ cs, c ∈ sampleStore.courses) ∧
        List.Sorted (fun a b => Collation.codepoint.le a.id b.id = true) cs) :=
  ⟨by decide, getEnrolledCourses_records Collation.codepoint sampleStore "S1" (by decide)⟩

/-! ## Frame of the cascade delete of a student -/

/-- C15: for every store and every existing student id `S`,
`StudentRepository::deleteStudent(S)` succeeds, leaves `teachers` and `courses` unchanged,
and the resulting `students`, `enrollments` and `scores` are exactly the original rows, in
their original order, whose student id differs from `S`; every row of another student is
kept as often as it was there. -/
theorem deleteStudent_frame (st : Store) (S : String) (h : st.hasStudent S) :
    (StudentRepository.deleteStudent st S).1 = .ok () ∧
    (StudentRepository.deleteStudent st S).2.teachers = st.teachers ∧
    (StudentRepository.deleteStudent st S).2.courses = st.courses ∧
    (StudentRepository.deleteStudent st S).2.students
      = st.students.filter (fun r => decide (r.id ≠ S)) ∧
    (StudentRepository.deleteStudent st S).2.enrollments
      = st.enrollments.filter (fun e => decide (e.studentId ≠ S)) ∧
    (StudentRepository.deleteStudent st S).2.scores
      = st.scores.filter (fun r => decide (r.studentId ≠ S)) ∧
    (∀ r : Student, r.id ≠ S →
      (StudentRepository.deleteStudent st S).2.students.count r = st.students.count r) ∧
    (∀ e : Enrollment, e.studentId ≠ S →
      (StudentRepository.deleteStudent st S).2.enrollments.count e = st.enrollments.count e) ∧
    (∀ r : Score, r.studentId ≠ S →
      (StudentRepository.deleteStudent st S).2.scores.count r = st.scores.count r) := by
  rw [deleteStudent_present st S h]
  refine ⟨rfl, rfl, rfl, ?_, ?_, ?_, ?_, ?_, ?_⟩
  · exact List.filter_congr (fun r _ => by by_cases hx : r.id = S <;> simp [hx])
  · exact List.filter_congr (fun r _ => by by_cases hx : r.studentId = S <;> simp [hx])
  · exact List.filter_congr (fun r _ => by by_cases hx : r.studentId = S <;> simp [hx])
  · intro r hr
    exact List.count_filter (by simpa using hr)
  · intro e he
    exact List.count_filter (by simpa using he)
  · intro r hr
    exact List.count_filter (by simpa using hr)

theorem deleteStudent_frame_witness :
    sampleStore.hasStudent "S1" ∧
    (StudentRepository.deleteStudent sampleStore "S1").1 = .ok () ∧
    (StudentRepository.deleteStudent sampleStore "S1").2.teachers = sampleStore.teachers ∧
    (StudentRepository.deleteStudent sampleStore "S1").2.courses = sampleStore.courses ∧
    (StudentRepository.deleteStudent sampleStore "S1").2.students
      = sampleStore.students.filter (fun r => decide (r.id ≠ "S1")) ∧
    (StudentRepository.deleteStudent sampleStore "S1").2.enrollments
      = sampleStore.enrollments.filter (fun e => decide (e.studentId ≠ "S1")) ∧
    (StudentRepository.deleteStudent sampleStore "S1").2.scores
      = sampleStore.scores.filter (fun r => decide (r.studentId ≠ "S1")) ∧
    (∀ r : Student, r.id ≠ "S1" →
      (StudentRepository.deleteStudent sampleStore "S1").2.students.count r
        = sampleStore.students.count r) ∧
    (∀ e : Enrollment, e.studentId ≠ "S1" →
      (StudentRepository.deleteStudent sampleStore "S1").2.enrollments.count e
        = sampleStore.enrollments.count e) ∧
    (∀ r : Score, r.studentId ≠ "S1" →
      (StudentRepository.deleteStudent sampleStore "S1").2.scores.count r
        = sampleStore.scores.count r) :=
  ⟨by decide, deleteStudent_frame sampleStore "S1" (by decide)⟩

/-! ## Referential integrity under the controllers -/

theorem addStudent_keeps_refs (st : Store) (student : Student) (h : RefIntegrity st) :
    RefIntegrity (StudentRepository.addStudent st student).2 := by
  rw [addStudent_eq]
  refine ⟨fun e he => ⟨?_, (h.1 e he).2⟩, h.2⟩
  obtain ⟨r, hr, hid⟩ := (h.1 e he).1
  refine ⟨r, ?_, hid⟩
  show r ∈ (if st.students.any (fun r => r.id == student.id) then st.students
    else st.students ++ [student])
  split
  · exact hr
  · exact List.mem_append_left _ hr

theorem addTeacher_keeps_refs (st : Store) (teacher : Teacher) (h : RefIntegrity st) :
    RefIntegrity (TeacherRepository.addTeacher st teacher).2 := by
  refine ⟨h.1, fun c hc => ?_⟩
  obtain ⟨r, hr, hid⟩ := h.2 c hc
  refine ⟨r, ?_, hid⟩
  show r ∈ (if st.teachers.any (fun r => r.id == teacher.id) then st.teachers
    else st.teachers ++ [teacher])
  split
  · exact hr
  · exact List.mem_append_left _ hr

theorem controller_addCourse_keeps_refs (st : Store) (id name : String) (credit : Int)
    (tid : String) (h : RefIntegrity st) :
    RefIntegrity (CourseController.addCourse st id name credit tid).2 := by
  by_cases ht : st.hasTeacher tid
  · obtain ⟨t, hget, -, -⟩ := getTeacherById_present st tid ht
    simp only [CourseController.addCourse, hget, Outcome.andThen,
      addCourse_eq st (Course.mk id name credit tid) ht]
    by_cases hany : st.courses.any (fun r => r.id == id) = true
    · simp only [hany, if_true]
      exact h
    · simp only [hany, Bool.false_eq_true, if_false]
      refine ⟨fun e he => ⟨(h.1 e he).1, ?_⟩, fun c hc => ?_⟩
      · obtain ⟨r, hr, hid⟩ := (h.1 e he).2
        exact ⟨r, List.mem_append_left _ hr, hid⟩
      · rcases List.mem_append.1 hc with hc | hc
        · exact h.2 c hc
        · rw [List.mem_singleton.1 hc]
          exact ht
  · simp only [CourseController.addCourse, getTeacherById_absent st tid ht, Outcome.andThen]
    exact h

theorem deleteStudent_keeps_refs (st : Store) (id : String) (h : RefIntegrity st) :
    RefIntegrity (StudentRepository.deleteStudent st id).2 := by
  by_cases hp : st.hasStudent id
  · rw [deleteStudent_present st id hp]
    refine ⟨fun e he => ?_, h.2⟩
    simp only [List.mem_filter, Bool.not_eq_true', beq_eq_false_iff_ne, ne_eq] at he
    obtain ⟨r, hr, hid⟩ := (h.1 e he.1).1
    refine ⟨⟨r, ?_, hid⟩, (h.1 e he.1).2⟩
    simp only [List.mem_filter, Bool.not_eq_true', beq_eq_false_iff_ne, ne_eq]
    exact ⟨hr, by rw [hid]; exact he.2⟩
  · rw [deleteStudent_absent st id hp]
    exact h

theorem deleteCourse_keeps_refs (st : Store) (id : String) (h : RefIntegrity st) :
    RefIntegrity (CourseRepository.deleteCourse st id).2 := by
  by_cases hp : st.hasCourse id
  · rw [deleteCourse_present st id hp]
    refine ⟨fun e he => ?_, fun c hc => h.2 c (List.mem_filter.1 hc).1⟩
    simp only [List.mem_filter, Bool.not_eq_true', beq_eq_false_iff_ne, ne_eq] at he
    obtain ⟨r, hr, hid⟩ := (h.1 e he.1).2
    refine ⟨(h.1 e he.1).1, ⟨r, ?_, hid⟩⟩
    simp only [List.mem_filter, Bool.not_eq_true', beq_eq_false_iff_ne, ne_eq]
    exact ⟨hr, by rw [hid]; exact he.2⟩
  · rw [deleteCourse_absent st id hp]
    exact h

theorem enrollStudent_keeps_refs (st : Store) (sid cid : String) (h : RefIntegrity st) :
    RefIntegrity (CourseController.enrollStudent st sid cid).2 := by
  by_cases hs : st.hasStudent sid
  · obtain ⟨s, hget, -, -⟩ := getStudentById_present st sid hs
    by_cases hc : st.hasCourse cid
    · obtain ⟨c, hgetc, -, -⟩ := getCourseById_present st cid hc
      simp only [CourseController.enrollStudent, hget, hgetc, Outcome.andThen]
      by_cases hen : st.enrolled sid cid
      · rw [enroll_duplicate_eq st sid cid hen]
        exact h
      · rw [enroll_fresh_eq st sid cid hen hs hc]
        refine ⟨fun e he => ?_, h.2⟩
        rcases List.mem_append.1 he with he | he
        · exact h.1 e he
        · rw [List.mem_singleton.1 he]
          exact ⟨hs, hc⟩
    · simp only [CourseController.enrollStudent, hget, getCourseById_absent st cid hc,
        Outcome.andThen]
      exact h
  · simp only [CourseController.enrollStudent, getStudentById_absent st sid hs,
      Outcome.andThen]
    exact h

theorem dropCourse_keeps_refs (st : Store) (sid cid : String) (h : RefIntegrity st) :
    RefIntegrity (EnrollmentRepository.dropCourse st sid cid).2 := by
  by_cases hen : st.enrolled sid cid
  · rw [dropCourse_enrolled_eq st sid cid hen]
    exact ⟨fun e he => h.1 e (List.mem_filter.1 he).1, h.2⟩
  · rw [dropCourse_not_enrolled_eq st sid cid hen]
    exact h

theorem setScore_keeps_refs (st : Store) (score : Score) (h : RefIntegrity st) :
    RefIntegrity (ScoreRepository.setScore st score).2 := by
  by_cases hen : st.enrolled score.studentId score.courseId
  · rw [setScore_enrolled_eq st score hen]
    exact h
  · rw [setScore_not_enrolled_eq st score hen]
    exact h

theorem inputScore_keeps_refs (st : Store) (sid cid : String) (v : ℚ) (h : RefIntegrity st) :
    RefIntegrity (ScoreController.inputScore st sid cid v).2 := by
  by_cases hs : st.hasStudent sid
  · obtain ⟨s, hget, -, -⟩ := getStudentById_present st sid hs
    by_cases hc : st.hasCourse cid
    · obtain ⟨c, hgetc, -, -⟩ := getCourseById_present st cid hc
      simp only [ScoreController.inputScore, hget, hgetc, Outcome.andThen]
      exact setScore_keeps_refs st _ h
    · simp only [ScoreController.inputScore, hget, getCourseById_absent st cid hc,
        Outcome.andThen]
      exact h
  · simp only [ScoreController.inputScore, getStudentById_absent st sid hs, Outcome.andThen]
    exact h

theorem repository_addCourse_keeps_refs (st : Store) (course : Course) (h : RefIntegrity st) :
    RefIntegrity (CourseRepository.addCourse st course).2 := by
  rcases addCourse_store_cases st course with he | ⟨ht, he⟩
  · rw [he]
    exact h
  · rw [he]
    refine ⟨fun e hmem => ⟨(h.1 e hmem).1, ?_⟩, fun c hc => ?_⟩
    · obtain ⟨r, hr, hid⟩ := (h.1 e hmem).2
      exact ⟨r, List.mem_append_left _ hr, hid⟩
    · rcases List.mem_append.1 hc with hc | hc
      · exact h.2 c hc
      · rw [List.mem_singleton.1 hc]
        exact ht

theorem repository_enroll_keeps_refs (st : Store) (sid cid : String) (h : RefIntegrity st) :
    RefIntegrity (EnrollmentRepository.enroll st sid cid).2 := by
  rcases enroll_store_cases st sid cid with he | ⟨hs, hc, he⟩
  · rw [he]
    exact h
  · rw [he]
    refine ⟨fun e hmem => ?_, h.2⟩
    rcases List.mem_append.1 hmem with hmem | hmem
    · exact h.1 e hmem
    · rw [List.mem_singleton.1 hmem]
      exact ⟨hs, hc⟩

/-- The foreign keys hold after every repository call as well: a call either finds the
rows it refers to, or is refused and changes nothing. -/
theorem repoOp_keeps_refs (op : RepoOp) (st : Store) (h : RefIntegrity st) :
    RefIntegrity (op.run st).2 := by
  cases op with
  | addStudent student => exact addStudent_keeps_refs st student h
  | addTeacher teacher => exact addTeacher_keeps_refs st teacher h
  | addCourse course => exact repository_addCourse_keeps_refs st course h
  | deleteStudent id => exact deleteStudent_keeps_refs st id h
  | deleteCourse id => exact deleteCourse_keeps_refs st id h
  | setScore score => exact setScore_keeps_refs st score h
  | enroll sid cid => exact repository_enroll_keeps_refs st sid cid h
  | dropCourse sid cid => exact dropCourse_keeps_refs st sid cid h

theorem serviceOp_keeps_refs (op : ServiceOp) (st : Store) (h : RefIntegrity st) :
    RefIntegrity (op.run st).2 := by
  cases op with
  | addStudent id name major => exact addStudent_keeps_refs st _ h
  | deleteStudent id => exact deleteStudent_keeps_refs st id h
  | addTeacher id name dept => exact addTeacher_keeps_refs st _ h
  | addCourse id name credit tid => exact controller_addCourse_keeps_refs st id name credit tid h
  | deleteCourse id => exact deleteCourse_keeps_refs st id h
  | enrollStudent sid cid => exact enrollStudent_keeps_refs st sid cid h
  | dropStudentCourse sid cid => exact dropCourse_keeps_refs st sid cid h
  | inputScore sid cid score => exact inputScore_keeps_refs st sid cid score h

theorem runServiceOps_keeps_refs (ops : List ServiceOp) (st : Store) (h : RefIntegrity st) :
    RefIntegrity (runServiceOps ops st) := by
  induction ops generalizing st with
  | nil => exact h
  | cons op rest ih => exact ih _ (serviceOp_keeps_refs op st h)

/-- C14: every controller call (`StudentController` add and delete, `TeacherController`
add, `CourseController` `addCourse`, `deleteCourse`, `enrollStudent`, `dropStudentCourse`,
`ScoreController::inputScore`) keeps referential integrity, so in every store reached from
the empty store by such calls every `enrollments` row names a student in `students` and a
course in `courses`, and every `courses` row names a teacher in `teachers`. -/
theorem referential_integrity_reachable :
    (∀ (op : ServiceOp) (st : Store), RefIntegrity st → RefIntegrity (op.run st).2) ∧
    (∀ ops : List ServiceOp, RefIntegrity (runServiceOps ops Store.empty)) := by
  refine ⟨serviceOp_keeps_refs, fun ops => runServiceOps_keeps_refs ops Store.empty ?_⟩
  exact ⟨fun e he => absurd he (List.not_mem_nil e), fun c hc => absurd hc (List.not_mem_nil c)⟩

/-! ## The end-to-end scenario -/

theorem scenarioScored_eq (name major : String) :
    scenarioScored name major
      = { students := [⟨"S1", name, major⟩]
          teachers := [⟨"T1", "Wang", "CS"⟩]
          courses := [⟨"C1", "Algorithms", 4, "T1"⟩]
          enrollments := [⟨"S1", "C1"⟩]
          scores := [⟨"S1", "C1", 85.5⟩] } := rfl

/-- C13: from the empty store, after `addTeacher("T1","Wang","CS")` the controller call
`addCourse("C1","Algorithms",4,"T1")` succeeds and `C1` is stored; the controller call
`addCourse("C2","X",4,"T99")` fails with the teacher-not-found error and `C2` is not stored;
after `addStudent("S1", ..)` the controller calls `enrollStudent("S1","C1")` and
`inputScore("S1","C1",85.5)` succeed; then `getScoresByStudentId("S1")` returns exactly one
row, with score 85.5, and `queryStudentScore("S1")` prints that one line and the average
85.5.  The student's name and major and the collation are arbitrary. -/
theorem scenario_end_to_end (name major : String) (col : Collation) :
    (CourseController.addCourse scenarioTeacher "C1" "Algorithms" 4 "T1").1 = .ok () ∧
    scenarioCourse.courses = [⟨"C1", "Algorithms", 4, "T1"⟩] ∧
    CourseController.addCourse scenarioCourse "C2" "X" 4 "T99"
      = (.error ("查询教师失败：" ++ ("教师ID【" ++ "T99" ++ "】不存在")), scenarioCourse) ∧
    ¬ scenarioRejected.hasCourse "C2" ∧
    (StudentController.addStudent scenarioRejected "S1" name major).1 = .ok () ∧
    (CourseController.enrollStudent (scenarioStudent name major) "S1" "C1").1 = .ok () ∧
    (ScoreController.inputScore (scenarioEnrolled name major) "S1" "C1" 85.5).1 = .ok () ∧
    ScoreRepository.getScoresByStudentId col (scenarioScored name major) "S1"
      = (.ok [⟨"S1", "C1", 85.5⟩], scenarioScored name major) ∧
    ScoreController.queryStudentScore col (scenarioScored name major) "S1"
      = (.ok ⟨[("C1", "Algorithms", 85.5)], 85.5⟩, scenarioScored name major) := by
  refine ⟨rfl, rfl, rfl, by decide, rfl, rfl, rfl, rfl, ?_⟩
  have hq : ScoreController.queryStudentScore col (scenarioScored name major) "S1"
      = (.ok ⟨[("C1", "Algorithms", 85.5)], (0 + 85.5) / ((1 : ℕ) : ℚ)⟩,
          scenarioScored name major) := rfl
  rw [hq]
  norm_num

end StudentSys
